import Mathlib

/-!
# Verification of the pyckup conversation engine, telephony session and orchestrator

Shallow embedding of `src/calle_core/llm_extractor.py`, `src/calle_core/softphone.py`
and `src/calle_core/call_e.py`.

The LLM provider, the plugin functions, the SIP media library and the audio
environment are external collaborators; they are modelled as oracles
(`Nat → String` streams consumed in call order, and observation streams for
media events).  The Python walker recurses through the langchain branch
structure; recursion is bounded by an explicit `fuel` argument and a run that
exhausts its fuel (or raises a Python exception, e.g. a `KeyError`) is `none`.

Python dictionaries are modelled as association lists, Python `list.pop(0)` as
head/tail decomposition (an `IndexError` on an empty list is `none`).  The
background filter thread spawned in `__information_extraction_successful` is
modelled as completing synchronously at its spawn point: the walker itself
serialises every observation of the information map through the information
lock, so this scheduling is observationally equivalent for the properties
proved here.  List aliasing between the (deep-copied) conversation config and
the live item queue only matters when the very same path list is traversed
twice in one run; no property below touches such a run, so loading a path
copies the list.
-/

/-- `ExtractionStatus` from `llm_extractor.py` (lines 487-490). -/
inductive ExtractionStatus where
  | inProgress
  | completed
  | aborted
deriving DecidableEq, Repr

/-- Chat messages: `HumanMessage` / `AIMessage` appended to `chat_history`. -/
inductive ChatMessage where
  | human (content : String)
  | ai (content : String)
deriving DecidableEq, Repr

/-- Tagged conversation items as read from the conversation config
(the `type` field is the discriminator; `interactive` defaults to `False`). -/
inductive ConversationItem where
  | read (text : String) (interactive : Bool)
  | prompt (prompt : String) (interactive : Bool)
  | path (name : String) (interactive : Bool)
  | information (title description format : String) (interactive : Bool)
  | choice (choicePrompt : String)
      (options : List (String × List ConversationItem)) (interactive : Bool)
  | function (module func : String) (interactive : Bool)
  | functionChoice (module func : String)
      (options : List (String × List ConversationItem)) (interactive : Bool)

/-- The `interactive` flag of an item (`item.get("interactive", False)`). -/
def ConversationItem.interactive : ConversationItem → Bool
  | .read _ b => b
  | .prompt _ b => b
  | .path _ b => b
  | .information _ _ _ b => b
  | .choice _ _ b => b
  | .function _ _ b => b
  | .functionChoice _ _ _ b => b

/-- Python `str.strip()`: drop whitespace from both ends.  (Defined by
structural recursion over the character list so that concrete runs reduce.) -/
def pyStrip (s : String) : String :=
  String.mk ((((s.toList).dropWhile Char.isWhitespace).reverse.dropWhile
    Char.isWhitespace).reverse)

/-- Python `dict` lookup on an association list (`d[k]` raises on `none`). -/
def alookup {α : Type} : List (String × α) → String → Option α
  | [], _ => none
  | (k, v) :: rest, key => if k = key then some v else alookup rest key

/-- Python `dict` assignment `d[k] = v` on an association list. -/
def ainsert {α : Type} : List (String × α) → String → α → List (String × α)
  | [], key, v => [(key, v)]
  | (k, w) :: rest, key, v =>
    if k = key then (k, v) :: rest else (k, w) :: ainsert rest key v

/-- The mutable state of an `LLMExtractor` instance:
`status`, `chat_history`, `__conversation_items`, `__current_item`,
`__extracted_information` and the (deep-copied) `conversation_paths` of
`__conversation_config`.  `llmCount` / `pluginCount` index the next oracle
response for the LLM and for dynamically loaded plugin functions. -/
structure ExtractorState where
  status : ExtractionStatus
  chatHistory : List ChatMessage
  items : List ConversationItem
  currentItem : ConversationItem
  extracted : List (String × Option String)
  paths : List (String × List ConversationItem)
  llmCount : Nat
  pluginCount : Nat

/-- `LLMExtractor.__init__` together with `__load_conversation_path("entry")`:
fails (`KeyError` / `IndexError`) if the entry path is missing or empty. -/
def initExtractor (paths : List (String × List ConversationItem)) :
    Option ExtractorState :=
  match alookup paths "entry" with
  | none => none
  | some [] => none
  | some (c :: rest) =>
    some { status := .inProgress, chatHistory := [], items := rest,
           currentItem := c, extracted := [], paths := paths,
           llmCount := 0, pluginCount := 0 }

/-- Result of the block at `llm_extractor.py` lines 444-454: after a
non-breaking item either continue the loop, break to await user input
(interactive item), or return because the queue is exhausted. -/
inductive StepCont where
  | next (st : ExtractorState)
  | stop (st : ExtractorState)
  | finish (st : ExtractorState)

/-- Lines 444-454 of `llm_extractor.py`: pop the next item and continue,
break on an interactive item, and on queue exhaustion set `COMPLETED`
unless running in aborted mode. -/
def advanceItem (st : ExtractorState) (aborted : Bool) : StepCont :=
  match st.items with
  | [] => .finish (if aborted then st else { st with status := .completed })
  | i :: rest =>
    if st.currentItem.interactive then
      .stop { st with currentItem := i, items := rest }
    else
      .next { st with currentItem := i, items := rest }

/-- `LLMExtractor.__extraction_aborted` (lines 319-342), parameterised by the
recursive walker call (which re-enters with `append_input=False, aborted=True`).
Sets `status := ABORTED` unconditionally, loads the `aborted` path and either
returns `""` (empty path) or the responses of the recursive walk. -/
def extractionAborted
    (recurse : ExtractorState → Option (List (String × String) × ExtractorState))
    (st : ExtractorState) :
    Option (Sum String (List (String × String)) × ExtractorState) :=
  let st₁ := { st with status := .aborted }
  match alookup st₁.paths "aborted" with
  | none => none
  | some [] => some (.inl "", { st₁ with items := [] })
  | some (c :: rest) =>
    match recurse { st₁ with currentItem := c, items := rest } with
    | none => none
    | some (rs, st') => some (.inr rs, st')

/-- The item-processing loop of `LLMExtractor.__process_conversation_items`
(lines 380-456), fuelled.  `ora` is the LLM oracle (one response per LLM
invocation, consumed in order), `plug` the plugin-function oracle.
Responses are the collected `(message, kind)` pairs. -/
def runItems (ora plug : Nat → String) :
    Nat → ExtractorState → String → Bool →
    Option (List (String × String) × ExtractorState)
  | 0, _, _, _ => none
  | fuel + 1, st, input, aborted =>
    match st.currentItem with
    | .read t _ =>
      let resp := t ++ "\n"
      let st₁ := { st with chatHistory := st.chatHistory ++ [.ai resp] }
      match advanceItem st₁ aborted with
      | .next st' =>
        match runItems ora plug fuel st' input aborted with
        | none => none
        | some (rs, st'') => some ((resp, "read") :: rs, st'')
      | .stop st' => some ([(resp, "read")], st')
      | .finish st' => some ([(resp, "read")], st')
    | .prompt _ _ =>
      let resp := ora st.llmCount ++ "\n"
      let st₁ := { st with llmCount := st.llmCount + 1,
                           chatHistory := st.chatHistory ++ [.ai resp] }
      match advanceItem st₁ aborted with
      | .next st' =>
        match runItems ora plug fuel st' input aborted with
        | none => none
        | some (rs, st'') => some ((resp, "prompt") :: rs, st'')
      | .stop st' => some ([(resp, "prompt")], st')
      | .finish st' => some ([(resp, "prompt")], st')
    | .path name _ =>
      match alookup st.paths name with
      | none => none
      | some l =>
        let st₁ := { st with items := l }
        match advanceItem st₁ aborted with
        | .next st' => runItems ora plug fuel st' input aborted
        | .stop st' => some ([], st')
        | .finish st' => some ([], st')
    | .information title _ _ _ =>
      let vs := pyStrip (ora st.llmCount)
      let st₁ := { st with llmCount := st.llmCount + 1 }
      if vs = "YES" then
        let fres := pyStrip (ora st₁.llmCount)
        let fval := if fres = "##FAILED##" then none else some fres
        let st₂ := { st₁ with llmCount := st₁.llmCount + 1,
                              extracted := ainsert st₁.extracted title fval }
        match st₂.items with
        | [] =>
          some ([("", "information")],
            { st₂ with status := .completed,
                       chatHistory := st₂.chatHistory ++ [.ai ""] })
        | c :: rest =>
          runItems ora plug fuel { st₂ with currentItem := c, items := rest }
            input false
      else if vs = "NO" then
        let resp := ora st₁.llmCount
        some ([(resp, "information")],
          { st₁ with llmCount := st₁.llmCount + 1,
                     chatHistory := st₁.chatHistory ++ [.ai resp] })
      else
        match extractionAborted (fun s => runItems ora plug fuel s input true) st₁ with
        | none => none
        | some (.inl s, st') =>
          some ([(s, "information")],
            { st' with chatHistory := st'.chatHistory ++ [.ai s] })
        | some (.inr rs, st') => some (rs, st')
    | .choice _ opts _ =>
      let ch := pyStrip (ora st.llmCount)
      let st₁ := { st with llmCount := st.llmCount + 1 }
      if ch = "##NONE##" then
        let resp := ora st₁.llmCount
        some ([(resp, "choice")],
          { st₁ with llmCount := st₁.llmCount + 1,
                     chatHistory := st₁.chatHistory ++ [.ai resp] })
      else if ch = "##ABORT##" then
        match extractionAborted (fun s => runItems ora plug fuel s input true) st₁ with
        | none => none
        | some (.inl s, st') =>
          some ([(s, "choice")],
            { st' with chatHistory := st'.chatHistory ++ [.ai s] })
        | some (.inr rs, st') => some (rs, st')
      else
        match alookup opts ch with
        | none => none
        | some [] => none
        | some (c :: rest) =>
          runItems ora plug fuel { st₁ with currentItem := c, items := rest }
            input false
    | .function _ _ _ =>
      let resp := plug st.pluginCount
      let st₁ := { st with pluginCount := st.pluginCount + 1 }
      match advanceItem st₁ aborted with
      | .next st' =>
        match runItems ora plug fuel st' input aborted with
        | none => none
        | some (rs, st'') => some ((resp, "function") :: rs, st'')
      | .stop st' => some ([(resp, "function")], st')
      | .finish st' => some ([(resp, "function")], st')
    | .functionChoice _ _ opts _ =>
      let ch := plug st.pluginCount
      let st₁ := { st with pluginCount := st.pluginCount + 1 }
      match alookup opts ch with
      | none => none
      | some l =>
        let st₂ := { st₁ with items := l }
        match advanceItem st₂ aborted with
        | .next st' => runItems ora plug fuel st' input aborted
        | .stop st' => some ([], st')
        | .finish st' => some ([], st')

/-- `LLMExtractor.__process_conversation_items` (lines 363-456): optionally
append the user input to the chat history, then run the item loop. -/
def processConversationItems (ora plug : Nat → String) (fuel : Nat)
    (st : ExtractorState) (input : String) (appendInput aborted : Bool) :
    Option (List (String × String) × ExtractorState) :=
  runItems ora plug fuel
    (if appendInput then
      { st with chatHistory := st.chatHistory ++ [.human input] }
    else st)
    input aborted

/-- `LLMExtractor.run_extraction_step` (lines 458-470). -/
def runExtractionStep (ora plug : Nat → String) (fuel : Nat)
    (st : ExtractorState) (input : String) :
    Option (List (String × String) × ExtractorState) :=
  processConversationItems ora plug fuel st input true false

/-! ## Telephony session and pool (`softphone.py`) -/

/-- Helper for `pySplit`: split a character list at each separator. -/
def pySplitAux (sep : Char) : List Char → List Char → List String
  | [], acc => [String.mk acc.reverse]
  | c :: rest, acc =>
    if c = sep then String.mk acc.reverse :: pySplitAux sep rest []
    else pySplitAux sep rest (c :: acc)

/-- Python `str.split(sep)` for a single-character separator.  (Defined by
structural recursion over the character list so that concrete runs reduce.) -/
def pySplit (s : String) (sep : Char) : List String :=
  pySplitAux sep s.toList []

/-- PJSUA2 SIP status codes used by `GroupAccount.onIncomingCall`. -/
def PJSIP_SC_OK : Nat := 200

/-- `pj.PJSIP_SC_BUSY_HERE` (486), named by the spec but never used in the source. -/
def PJSIP_SC_BUSY_HERE : Nat := 486

/-- The per-session state of a `Softphone`: the active leg, the optional
paired (forwarding) leg, the two TTS media players and a counter supplying
fresh handles for newly constructed calls/players. -/
structure SoftphoneState where
  activeCall : Option Nat
  pairedCall : Option Nat
  mediaPlayer1 : Option Nat
  mediaPlayer2 : Option Nat
  nextId : Nat
deriving DecidableEq, Repr

/-- Externally observable effects of `Softphone.call`. -/
inductive PhoneEvent where
  | logCallAlreadyInProgress
  | makeCall (sipAddress : String)
deriving DecidableEq, Repr

/-- `Softphone.call` (lines 173-193).  When a call is already active the
method only prints a complaint (`print("Can't call: ...")`) — there is no
`return`, so it falls through, constructs the SIP address and places a new
outbound leg anyway, overwriting `self.active_call`.  A malformed registrar
URI without a `:` makes `split(":")[1]` raise (`none`). -/
def softphoneCall (st : SoftphoneState) (phoneNumber registrarUri : String) :
    Option (SoftphoneState × List PhoneEvent) :=
  let warn :=
    if st.activeCall.isSome then [PhoneEvent.logCallAlreadyInProgress] else []
  match (pySplit registrarUri ':').get? 1 with
  | none => none
  | some registrar =>
    some ({ st with activeCall := some st.nextId, nextId := st.nextId + 1 },
      warn ++ [PhoneEvent.makeCall ("sip:" ++ phoneNumber ++ "@" ++ registrar)])

/-- A session slot of the pool, as seen by `GroupAccount.onIncomingCall`:
only its `active_call` binding matters for routing. -/
structure PoolPhone where
  activeCall : Option Nat
deriving DecidableEq, Repr

/-- What `onIncomingCall` did with the incoming call: answered on the session
with the given index using the given SIP status code, or hung it up.  The
hangup uses a default-constructed `pj.CallOpParam(True)` on which the source
never sets `statusCode`, recorded here as `explicitStatusCode = none`. -/
inductive IncomingResult where
  | answered (index statusCode : Nat)
  | hungUp (explicitStatusCode : Option Nat)
deriving DecidableEq, Repr

/-- The scan in `GroupAccount.onIncomingCall` (lines 66-78): skip sessions
with an active call; the first free one answers (`PJSIP_SC_OK`) and binds the
call.  Returns the updated session list and the chosen index. -/
def incomingScan (callId : Nat) : List PoolPhone → Nat → Option (Nat × List PoolPhone)
  | [], _ => none
  | p :: rest, idx =>
    if p.activeCall.isSome then
      match incomingScan callId rest (idx + 1) with
      | none => none
      | some (j, rest') => some (j, p :: rest')
    else
      some (idx, { activeCall := some callId } :: rest)

/-- `GroupAccount.onIncomingCall` (lines 66-83). -/
def onIncomingCall (phones : List PoolPhone) (callId : Nat) :
    List PoolPhone × IncomingResult :=
  match incomingScan callId phones 0 with
  | some (j, phones') => (phones', .answered j PJSIP_SC_OK)
  | none => (phones, .hungUp none)

/-- Media operations issued toward the active call's audio media. -/
inductive MediaAction where
  | stopTransmit (player : Nat)
  | createPlayer (player : Nat) (source : String) (l : Bool)
  | startTransmit (player : Nat)
deriving DecidableEq, Repr

/-- How `say` / `play_audio` returned. -/
inductive SayOutcome where
  | noCallInProgress
  | inForwardingSession
  | noAudioMedia
  | spoke
deriving DecidableEq, Repr

/-- External inputs to one `say` invocation: what the call media scan sees
(`True` = an active audio medium at that position), whether the TTS cache
file for the message exists, and the sizes of the PCM chunks streamed from
the TTS provider. -/
structure SayEnv where
  media : List Bool
  cacheHit : Bool
  chunks : List Nat

/-- The double-buffer streaming loop of `Softphone.say` (lines 486-576):
chunks shorter than 512 bytes are skipped; otherwise the buffers alternate,
the transmitter of the other buffer is stopped, and a fresh player over the
buffer just filled starts transmitting.  Returns the two player slots, the
fresh-handle counter and the action trace. -/
def sayStream (bufferA bufferB : String) :
    Option Nat → Option Nat → Nat → Bool → List Nat →
    (Option Nat × Option Nat) × Nat × List MediaAction
  | p1, p2, nid, _, [] => ((p1, p2), nid, [])
  | p1, p2, nid, bufferSwitch, c :: rest =>
    if c ≥ 512 then
      if bufferSwitch then
        let stops := match p2 with
          | some q => [MediaAction.stopTransmit q]
          | none => []
        let acts := stops ++
          [MediaAction.createPlayer nid bufferA false, MediaAction.startTransmit nid]
        let (ps, nid', rest') := sayStream bufferA bufferB (some nid) p2 (nid + 1) false rest
        (ps, nid', acts ++ rest')
      else
        let stops := match p1 with
          | some q => [MediaAction.stopTransmit q]
          | none => []
        let acts := stops ++
          [MediaAction.createPlayer nid bufferB false, MediaAction.startTransmit nid]
        let (ps, nid', rest') := sayStream bufferA bufferB p1 (some nid) (nid + 1) true rest
        (ps, nid', acts ++ rest')
    else
      sayStream bufferA bufferB p1 p2 nid bufferSwitch rest

/-- `Softphone.say` (lines 404-611).  Guards first: no active call, then
paired call ("Can't say: Call is in forwarding session.") — both return
without touching any media.  Otherwise the first active audio medium is
used; a cache hit plays the cached file on a single fresh player, a miss
runs the double-buffer stream. -/
def softphoneSay (st : SoftphoneState) (env : SayEnv) (message : String) :
    SoftphoneState × List MediaAction × SayOutcome :=
  if st.activeCall.isNone then (st, [], .noCallInProgress)
  else if st.pairedCall.isSome then (st, [], .inForwardingSession)
  else if env.media.any (· = true) then
    if env.cacheHit then
      let cachedFile := "cache/" ++ message ++ ".wav"
      let stops :=
        (match st.mediaPlayer1 with
          | some q => [MediaAction.stopTransmit q]
          | none => []) ++
        (match st.mediaPlayer2 with
          | some q => [MediaAction.stopTransmit q]
          | none => [])
      let acts := stops ++
        [MediaAction.createPlayer st.nextId cachedFile false,
         MediaAction.startTransmit st.nextId, MediaAction.stopTransmit st.nextId]
      ({ st with mediaPlayer1 := some st.nextId, nextId := st.nextId + 1 },
        acts, .spoke)
    else
      let ((p1, p2), nid, acts) :=
        sayStream "outgoing_buffer_0.wav" "outgoing_buffer_1.wav"
          st.mediaPlayer1 st.mediaPlayer2 st.nextId true env.chunks
      ({ st with mediaPlayer1 := p1, mediaPlayer2 := p2, nextId := nid },
        acts, .spoke)
  else (st, [], .noAudioMedia)

/-- The body of the `for` loop in `Softphone.play_audio` (lines 631-647):
`call_media` is (re)bound whenever the medium at the current index is active
audio, and the stop/create/start block runs for *every* index; referencing
`call_media` while still unbound raises a `NameError` (`none`). -/
def playAudioLoop (file : String) (doLoop : Bool) :
    Option Nat → Option Nat → Nat → Option Unit → List Bool →
    Option ((Option Nat × Option Nat) × Nat × List MediaAction)
  | p1, p2, nid, _, [] => some ((p1, p2), nid, [])
  | p1, p2, nid, callMedia, m :: rest =>
    let callMedia' := if m then some () else callMedia
    if callMedia'.isNone then none
    else
      let stops :=
        (match p1 with
          | some q => [MediaAction.stopTransmit q]
          | none => []) ++
        (match p2 with
          | some q => [MediaAction.stopTransmit q]
          | none => [])
      let acts := stops ++
        [MediaAction.createPlayer nid file doLoop, MediaAction.startTransmit nid]
      match playAudioLoop file doLoop (some nid) p2 (nid + 1) callMedia' rest with
      | none => none
      | some (ps, nid', rest') => some (ps, nid', acts ++ rest')

/-- `Softphone.play_audio` (lines 613-647): the same two guards as `say`
("Can't play audio: Call is in forwarding session."), then the media loop. -/
def softphonePlayAudio (st : SoftphoneState) (media : List Bool)
    (file : String) (doLoop : Bool) :
    Option (SoftphoneState × List MediaAction × SayOutcome) :=
  if st.activeCall.isNone then some (st, [], .noCallInProgress)
  else if st.pairedCall.isSome then some (st, [], .inForwardingSession)
  else
    match playAudioLoop file doLoop st.mediaPlayer1 st.mediaPlayer2 st.nextId none media with
    | none => none
    | some ((p1, p2), nid, acts) =>
      some ({ st with mediaPlayer1 := p1, mediaPlayer2 := p2, nextId := nid },
        acts, .spoke)

/-! ## Listening and recording (`Softphone.listen`, `__record_incoming_audio`) -/

/-- What one pass of `__record_incoming_audio`'s outer loop observes about the
active call's media. -/
inductive MediaObs where
  | noActiveMedia
  | lostDuringRecording
  | inactiveAfterRecording
  | recordedOk (dbfs : Int)
deriving DecidableEq, Repr

/-- The retry loop of `Softphone.__record_incoming_audio` (lines 712-762),
with the call's (single) audio medium observed through `menv` once per scan.
Returns the dBFS of the recorded segment on success (`some`), `none` on
failure, together with the next observation index and the number of
one-second retry sleeps performed.  When no active audio medium is found the
loop sleeps one second and increments `waited_on_media`; when the medium went
inactive after recording, the `continue` re-enters the `for` loop, which then
ends and the outer loop sleeps again, so `waited_on_media` advances by two. -/
def recordLoop (menv : Nat → MediaObs) (timeout : Nat) :
    Nat → Nat → Nat → Nat → Option Int × Nat × Nat
  | 0, _, n, sleeps => (none, n, sleeps)
  | fuel + 1, waited, n, sleeps =>
    if waited < timeout then
      match menv n with
      | .noActiveMedia => recordLoop menv timeout fuel (waited + 1) (n + 1) (sleeps + 1)
      | .lostDuringRecording => (none, n + 1, sleeps)
      | .inactiveAfterRecording =>
        recordLoop menv timeout fuel (waited + 2) (n + 1) (sleeps + 2)
      | .recordedOk d => (some d, n + 1, sleeps)
    else (none, n, sleeps)

/-- The default of the `unavailable_media_timeout` parameter (60 seconds). -/
def unavailableMediaTimeoutDefault : Nat := 60

/-- `Softphone.__record_incoming_audio` starting at observation index `n`.
Each loop pass increases `waited_on_media` by at least one while it is below
`timeout`, so `timeout + 1` units of fuel can never be exhausted. -/
def recordIncomingAudio (menv : Nat → MediaObs) (n timeout : Nat) :
    Option Int × Nat × Nat :=
  recordLoop menv timeout (timeout + 1) 0 n 0

/-- The silence-skip loop of `Softphone.listen` (lines 664-675): while the
last segment is below the silence threshold, return `""` if the active call
is gone or a paired call appeared, `"##INTERRUPTED##"` if recording fails,
else record another interval.  `penv` yields the `(active_call, paired_call)`
observations, one per loop head.  On loop exit, yields the last dBFS and the
next media/phone observation indices. -/
def listenSkip (menv : Nat → MediaObs) (penv : Nat → Bool × Bool) (sT : Int) :
    Nat → Int → Nat → Nat → Option (Sum String (Int × Nat × Nat))
  | 0, _, _, _ => none
  | fuel + 1, lastDb, n, pk =>
    if lastDb < sT then
      let (act, prd) := penv pk
      if !act || prd then some (.inl "")
      else
        match recordIncomingAudio menv n unavailableMediaTimeoutDefault with
        | (none, _, _) => some (.inl "##INTERRUPTED##")
        | (some d, n', _) => listenSkip menv penv sT fuel d n' (pk + 1)
    else some (.inr (lastDb, n, pk))

/-- The speech-collect loop of `Softphone.listen` (lines 678-696): while the
last segment is above the adaptive threshold, lower the threshold to the last
dBFS minus 5, perform the same two checks, and record the next interval. -/
def listenCollect (menv : Nat → MediaObs) (penv : Nat → Bool × Bool) :
    Nat → Int → Int → Nat → Nat → Option (Sum String Nat)
  | 0, _, _, _, _ => none
  | fuel + 1, lastDb, activeThreshold, n, pk =>
    if lastDb > activeThreshold then
      let aT := lastDb - 5
      let (act, prd) := penv pk
      if !act || prd then some (.inl "")
      else
        match recordIncomingAudio menv n unavailableMediaTimeoutDefault with
        | (none, _, _) => some (.inl "##INTERRUPTED##")
        | (some d, n', _) => listenCollect menv penv fuel d aT n' (pk + 1)
    else some (.inr n)

/-- `Softphone.listen` (lines 649-710): an initial unguarded recording, the
silence-skip loop, the speech-collect loop, then transcription (the
transcript is an oracle for the speech-to-text provider). -/
def softphoneListen (menv : Nat → MediaObs) (penv : Nat → Bool × Bool)
    (sT : Int) (transcript : String) (fuel : Nat) : Option String :=
  match recordIncomingAudio menv 0 unavailableMediaTimeoutDefault with
  | (none, _, _) => some "##INTERRUPTED##"
  | (some d0, n, _) =>
    match listenSkip menv penv sT fuel d0 n 0 with
    | none => none
    | some (.inl s) => some s
    | some (.inr (d, n', pk)) =>
      match listenCollect menv penv fuel d sT n' pk with
      | none => none
      | some (.inl s) => some s
      | some (.inr _) => some transcript

/-! ## Orchestrator database effects (`call_e.py`) -/

/-- Lookup in a table keyed by `contact_id`. -/
def nlookup {α : Type} : List (Nat × α) → Nat → Option α
  | [], _ => none
  | (k, v) :: rest, key => if k = key then some v else nlookup rest key

/-- A `{title}_status` row: `num_attempts` and `status`. -/
structure StatusRow where
  numAttempts : Nat
  status : String
deriving DecidableEq, Repr

/-- The SQLite state used by `call_e`: the `contacts` table
(`contact_id → (name, phone_number)`), the `{title}_status` table and the
`{title}` results table (one column per extracted field). -/
structure CalleDb where
  contacts : List (Nat × String × String)
  statusTable : List (Nat × StatusRow)
  results : List (Nat × List (String × Option String))
deriving DecidableEq, Repr

/-- `INSERT OR IGNORE INTO {title}_status (contact_id, num_attempts, status)
VALUES (?, 0, "NOT_REACHED")`. -/
def statusUpsertIgnore (t : List (Nat × StatusRow)) (cid : Nat) :
    List (Nat × StatusRow) :=
  match nlookup t cid with
  | some _ => t
  | none => t ++ [(cid, ⟨0, "NOT_REACHED"⟩)]

/-- `UPDATE {title}_status SET num_attempts = num_attempts + 1 WHERE contact_id = ?`. -/
def statusIncrement : List (Nat × StatusRow) → Nat → List (Nat × StatusRow)
  | [], _ => []
  | (k, r) :: rest, cid =>
    (k, if k = cid then { r with numAttempts := r.numAttempts + 1 } else r) ::
      statusIncrement rest cid

/-- `UPDATE {title}_status SET status = ? WHERE contact_id = ?`. -/
def statusSetStatus : List (Nat × StatusRow) → Nat → String → List (Nat × StatusRow)
  | [], _, _ => []
  | (k, r) :: rest, cid, s =>
    (k, if k = cid then { r with status := s } else r) :: statusSetStatus rest cid s

/-- The row replacement of `INSERT OR REPLACE INTO {title} ...`. -/
def resultsReplace : List (Nat × List (String × Option String)) → Nat →
    List (String × Option String) → List (Nat × List (String × Option String))
  | [], _, _ => []
  | (k, r) :: rest, cid, information =>
    (k, if k = cid then information else r) :: resultsReplace rest cid information

/-- `INSERT OR REPLACE INTO {title} (...) VALUES (...)` keyed by the unique
`contact_id` column. -/
def resultsUpsert (t : List (Nat × List (String × Option String))) (cid : Nat)
    (information : List (String × Option String)) :
    List (Nat × List (String × Option String)) :=
  match nlookup t cid with
  | some _ => resultsReplace t cid information
  | none => t ++ [(cid, information)]

/-- The external outcome of one outbound dialogue: whether the callee picked
up, the extractor's final status, and the extracted information. -/
structure CallOutcome where
  pickedUp : Bool
  finalStatus : ExtractionStatus
  information : List (String × Option String)

/-- The database effect of `call_e.__perform_outgoing_call` (lines 220-341)
when invoked with a contact id (`call_contact` path, `phone_number=None`).
Python truthiness: `if contact_id:` is false for `0`, in which case the
status block is skipped and the subsequent `"Calling " + None` raises
(`none`).  An invalid contact id returns with no write.  The status row is
upserted and `num_attempts` incremented *before* the call is placed; if the
callee does not pick up the function returns with no further write; after
the dialogue, status becomes `ABORTED` or `COMPLETED` and, on completion,
the result row is upserted. -/
def performOutgoingCallDb (db : CalleDb) (contactId : Option Nat)
    (out : CallOutcome) : Option CalleDb :=
  match contactId with
  | none => some db
  | some cid =>
    if cid = 0 then none
    else
      match nlookup db.contacts cid with
      | none => some db
      | some _ =>
        let t₁ := statusUpsertIgnore db.statusTable cid
        let t₂ := statusIncrement t₁ cid
        if !out.pickedUp then some { db with statusTable := t₂ }
        else if out.finalStatus ≠ ExtractionStatus.completed then
          some { db with statusTable := statusSetStatus t₂ cid "ABORTED" }
        else
          some { db with statusTable := statusSetStatus t₂ cid "COMPLETED",
                         results := resultsUpsert db.results cid out.information }

/-- The per-contact decision of the loop in `call_e.call_contacts`
(lines 431-453), in source order: skip invalid ids, always call when no
status row exists, skip when the status differs from `NOT_REACHED`, skip
when `num_attempts` has reached `maximum_attempts` (`None` meaning
`float("inf")`, which no attempt count ever reaches), else call. -/
inductive ContactDecision where
  | invalidId
  | alreadyReached
  | maxAttemptsReached
  | called
deriving DecidableEq, Repr

/-- The decision taken for one contact id by `call_contacts`. -/
def decideContact (db : CalleDb) (maximumAttempts : Option Nat) (cid : Nat) :
    ContactDecision :=
  match nlookup db.contacts cid with
  | none => .invalidId
  | some _ =>
    match nlookup db.statusTable cid with
    | none => .called
    | some row =>
      if row.status ≠ "NOT_REACHED" then .alreadyReached
      else
        match maximumAttempts with
        | none => .called
        | some m => if row.numAttempts ≥ m then .maxAttemptsReached else .called

/-- The loop of `call_e.call_contacts`, threading the database through the
calls it performs; `outs k` is the outcome of the `k`-th performed call.
Returns the final database and the trace of per-contact decisions. -/
def callContactsLoop (outs : Nat → CallOutcome) (maximumAttempts : Option Nat) :
    CalleDb → List Nat → Nat → Option (CalleDb × List (Nat × ContactDecision))
  | db, [], _ => some (db, [])
  | db, cid :: rest, k =>
    match decideContact db maximumAttempts cid with
    | .called =>
      match performOutgoingCallDb db (some cid) (outs k) with
      | none => none
      | some db' =>
        match callContactsLoop outs maximumAttempts db' rest (k + 1) with
        | none => none
        | some (db'', tr) => some (db'', (cid, .called) :: tr)
    | d =>
      match callContactsLoop outs maximumAttempts db rest k with
      | none => none
      | some (db'', tr) => some (db'', (cid, d) :: tr)

/-- `call_e.call_contacts` (lines 402-453): with `contact_ids=None` the ids
are read from the `contacts` table and sorted ascending (`list.sort()`);
then the loop runs over them. -/
def callContacts (db : CalleDb) (contactIds : Option (List Nat))
    (maximumAttempts : Option Nat) (outs : Nat → CallOutcome) :
    Option (CalleDb × List (Nat × ContactDecision)) :=
  let ids :=
    match contactIds with
    | some l => l
    | none => (db.contacts.map (·.1)).mergeSort
  callContactsLoop outs maximumAttempts db ids 0

/-! ## Concrete configurations used by counterexamples and witnesses -/

/-- A minimal conversation config: `entry` is a single non-interactive read. -/
def c1Paths : List (String × List ConversationItem) :=
  [("entry", [.read "Hi" false]), ("aborted", [.read "Bye" false])]

/-- The freshly initialised engine state for `c1Paths`. -/
def c1St0 : ExtractorState :=
  { status := .inProgress, chatHistory := [], items := [],
    currentItem := .read "Hi" false, extracted := [], paths := c1Paths,
    llmCount := 0, pluginCount := 0 }

/-- State after the first step on `c1Paths`: the read was emitted and the
queue exhausted, so the status is `COMPLETED`. -/
def c1St1 : ExtractorState :=
  { c1St0 with status := .completed, chatHistory := [.human "", .ai "Hi\n"] }

/-- A conversation config whose `entry` is a single information item. -/
def c2Paths : List (String × List ConversationItem) :=
  [("entry", [.information "name" "the name" "text" false]),
   ("aborted", [.read "Bye" false])]

/-- The freshly initialised engine state for `c2Paths`. -/
def c2St0 : ExtractorState :=
  { status := .inProgress, chatHistory := [], items := [],
    currentItem := .information "name" "the name" "text" false, extracted := [],
    paths := c2Paths, llmCount := 0, pluginCount := 0 }

/-- LLM oracle for the `c2Paths` scenario: the verifier accepts, the filter
extracts `"Max"`, and the verifier of the next step answers `"ABORT"`. -/
def c2Ora : Nat → String
  | 0 => "YES"
  | 1 => "Max"
  | 2 => "ABORT"
  | _ => ""

/-- State after step 1 on `c2Paths` with `c2Ora`: extraction succeeded, the
queue is empty, status is `COMPLETED`. -/
def c2St1 : ExtractorState :=
  { c2St0 with status := .completed, chatHistory := [.human "i am max", .ai ""],
               extracted := [("name", some "Max")], llmCount := 2 }

/-- State after step 2 on `c2Paths` with `c2Ora`: the verifier answered
`"ABORT"`, the aborted path was played, and the prior `COMPLETED` status was
overwritten with `ABORTED`. -/
def c2St2 : ExtractorState :=
  { c2St1 with status := .aborted,
               chatHistory := c2St1.chatHistory ++ [.human "please stop", .ai "Bye\n"],
               currentItem := .read "Bye" false, llmCount := 3 }

/-- The constant-`""` oracle (no LLM/plugin response content matters). -/
def oraNone : Nat → String := fun _ => ""

/-! ## C1 -/

/-- C1, counterexample.  On `c1Paths` the first step completes the
conversation (`status = COMPLETED`), yet a second `run_extraction_step`
returns the read fragment again — a non-empty list — and extends the chat
history: once terminal, a further step is not a no-op, contrary to the
claim. -/
theorem c1_counterexample_second_step_emits_again :
    initExtractor c1Paths = some c1St0 ∧
    runExtractionStep oraNone oraNone 10 c1St0 "" = some ([("Hi\n", "read")], c1St1) ∧
    c1St1.status = ExtractionStatus.completed ∧
    runExtractionStep oraNone oraNone 10 c1St1 "x" =
      some ([("Hi\n", "read")],
        { c1St1 with chatHistory := c1St1.chatHistory ++ [.human "x", .ai "Hi\n"] }) ∧
    ([("Hi\n", "read")] : List (String × String)) ≠ [] ∧
    c1St1.chatHistory ++ [ChatMessage.human "x", ChatMessage.ai "Hi\n"] ≠ c1St1.chatHistory := by
  refine ⟨rfl, rfl, rfl, rfl, by decide, by decide⟩

/-- C1, amended.  `run_extraction_step` performs no terminal-status check:
from any terminal state whose item queue is exhausted and whose retained
current item is a read item, a further step re-processes that item — it
returns the read fragment again (a non-empty list), appends the user input
and the fragment to the chat history, and (re)sets the status to
`COMPLETED`, even when it was `ABORTED`. -/
theorem c1_amended_terminal_step_reprocesses
    (ora plug : Nat → String) (fuel : Nat) (st : ExtractorState)
    (input t : String) (b : Bool)
    (_hterm : st.status ≠ ExtractionStatus.inProgress)
    (hq : st.items = [])
    (hc : st.currentItem = ConversationItem.read t b) :
    runExtractionStep ora plug (fuel + 1) st input =
      some ([(t ++ "\n", "read")],
        { st with status := .completed,
                  chatHistory := st.chatHistory ++ [.human input, .ai (t ++ "\n")] }) := by
  simp only [runExtractionStep, processConversationItems, if_pos, runItems, hc,
    advanceItem, hq, List.append_assoc, List.cons_append, List.nil_append]
  rfl

/-- C1, witness for the amended theorem at the concrete `c1St1` state. -/
theorem c1_amended_witness :
    c1St1.status ≠ ExtractionStatus.inProgress ∧
    runExtractionStep oraNone oraNone 10 c1St1 "x" =
      some ([("Hi\n", "read")],
        { c1St1 with status := .completed,
                     chatHistory := c1St1.chatHistory ++ [.human "x", .ai "Hi\n"] }) :=
  ⟨by decide, c1_amended_terminal_step_reprocesses oraNone oraNone 9 c1St1 "x" "Hi" false
    (by decide) rfl rfl⟩

/-! ## C2 -/

/-- C2, counterexample.  On `c2Paths` with `c2Ora`, step 1 reaches
`COMPLETED`; step 2 hits the `ABORT` branch of the information extraction
chain, which overwrites the prior `COMPLETED` with `ABORTED` — contradicting
the claim that entering the aborted path does not change a `COMPLETED`
status. -/
theorem c2_counterexample_abort_overwrites_completed :
    initExtractor c2Paths = some c2St0 ∧
    runExtractionStep c2Ora oraNone 10 c2St0 "i am max" =
      some ([("", "information")], c2St1) ∧
    c2St1.status = ExtractionStatus.completed ∧
    runExtractionStep c2Ora oraNone 10 c2St1 "please stop" =
      some ([("Bye\n", "read")], c2St2) ∧
    c2St2.status = ExtractionStatus.aborted := by
  refine ⟨rfl, rfl, rfl, rfl, rfl⟩

/-- C2, amended.  `__extraction_aborted` sets `status := ABORTED`
unconditionally — also over a prior `COMPLETED` (there is no
`COMPLETED`-preservation exception): with an empty `aborted` path it returns
`""` with the status forced to `ABORTED`, and with a non-empty `aborted`
path it re-enters the walker on a state whose status is forced to `ABORTED`.
The second half of the claim does hold: when the walker runs in aborted
mode, queue exhaustion leaves the engine state — in particular the status —
unchanged. -/
theorem c2_amended_abort_overwrites_and_aborted_exhaustion_preserves :
    (∀ (recurse : ExtractorState → Option (List (String × String) × ExtractorState))
       (st : ExtractorState),
      alookup st.paths "aborted" = some [] →
      extractionAborted recurse st =
        some (Sum.inl "", { st with status := .aborted, items := [] })) ∧
    (∀ (recurse : ExtractorState → Option (List (String × String) × ExtractorState))
       (st : ExtractorState) (c : ConversationItem) (rest : List ConversationItem),
      alookup st.paths "aborted" = some (c :: rest) →
      extractionAborted recurse st =
        match recurse { st with status := .aborted, currentItem := c, items := rest } with
        | none => none
        | some (rs, st') => some (Sum.inr rs, st')) ∧
    (∀ st : ExtractorState, st.items = [] → advanceItem st true = .finish st) := by
  refine ⟨?_, ?_, ?_⟩
  · intro recurse st h
    simp only [extractionAborted, h]
  · intro recurse st c rest h
    simp only [extractionAborted, h]
  · intro st h
    simp only [advanceItem, h, if_pos]

/-- C2, witness: the amended theorem applied at a concrete state whose
status is `COMPLETED`, with a trivial recursive walker. -/
theorem c2_amended_witness :
    alookup c2St1.paths "aborted" = some [ConversationItem.read "Bye" false] ∧
    extractionAborted (fun s => some ([], s)) c2St1 =
      some (Sum.inr [],
        { c2St1 with status := .aborted, currentItem := .read "Bye" false, items := [] }) ∧
    c2St1.items = [] ∧ advanceItem c2St1 true = .finish c2St1 := by
  refine ⟨rfl, ?_, rfl,
    c2_amended_abort_overwrites_and_aborted_exhaustion_preserves.2.2 c2St1 rfl⟩
  have h := c2_amended_abort_overwrites_and_aborted_exhaustion_preserves.2.1
    (fun s => some ([], s)) c2St1 (ConversationItem.read "Bye" false) [] rfl
  simpa using h

/-! ## C10 -/

/-- C10.  In the choice extraction chain any classifier output other than
`##NONE##` and `##ABORT##` is routed to the success branch, which indexes
the item's options with that output; when the output is not one of the
option keys the lookup raises an uncaught `KeyError`, so
`run_extraction_step` fails (`none`) instead of recovering through the
aborted path. -/
theorem c10_unknown_choice_output_raises
    (ora plug : Nat → String) (fuel : Nat) (st : ExtractorState)
    (input cp : String) (opts : List (String × List ConversationItem)) (b : Bool)
    (ch : String)
    (hc : st.currentItem = ConversationItem.choice cp opts b)
    (hout : pyStrip (ora st.llmCount) = ch)
    (hnone : ch ≠ "##NONE##")
    (habort : ch ≠ "##ABORT##")
    (hkey : alookup opts ch = none) :
    runExtractionStep ora plug (fuel + 1) st input = none := by
  simp only [runExtractionStep, processConversationItems, if_pos, runItems, hc,
    hout, if_neg hnone, if_neg habort, hkey]

/-- A conversation config whose `entry` is a single choice item with the two
option keys `coffee` and `tea`. -/
def c10Paths : List (String × List ConversationItem) :=
  [("entry",
    [.choice "coffee or tea?"
      [("coffee", [.read "C" false]), ("tea", [.read "T" false])] false]),
   ("aborted", [.read "Bye" false])]

/-- The freshly initialised engine state for `c10Paths`. -/
def c10St0 : ExtractorState :=
  { status := .inProgress, chatHistory := [], items := [],
    currentItem := .choice "coffee or tea?"
      [("coffee", [.read "C" false]), ("tea", [.read "T" false])] false,
    extracted := [], paths := c10Paths, llmCount := 0, pluginCount := 0 }

/-- C10, witness: with classifier output `"juice"` — neither a sentinel nor
an option key — the step fails with the uncaught key lookup. -/
theorem c10_witness :
    c10St0.currentItem = ConversationItem.choice "coffee or tea?"
      [("coffee", [.read "C" false]), ("tea", [.read "T" false])] false ∧
    runExtractionStep (fun _ => "juice") oraNone 10 c10St0 "juice please" = none :=
  ⟨rfl, c10_unknown_choice_output_raises (fun _ => "juice") oraNone 9 c10St0
    "juice please" "coffee or tea?"
    [("coffee", [.read "C" false]), ("tea", [.read "T" false])] false "juice"
    rfl rfl (by decide) (by decide) rfl⟩

/-! ## C3 -/

/-- A softphone session that already has an active call bound. -/
def c3St : SoftphoneState :=
  { activeCall := some 1, pairedCall := none, mediaPlayer1 := none,
    mediaPlayer2 := none, nextId := 2 }

/-- C3.  `Softphone.call` on a session with an active call: the guard only
prints the rejection — the missing `return` lets the method fall through, so
a new outbound leg *is* constructed (`makeCall`) and `active_call` is
replaced, contradicting the claim (and the method's own printed message,
which is why this is recorded as a code bug rather than a spec error). -/
theorem c3_call_replaces_active_call :
    softphoneCall c3St "123" "sip:registrar.example" =
      some ({ c3St with activeCall := some 2, nextId := 3 },
        [PhoneEvent.logCallAlreadyInProgress,
         PhoneEvent.makeCall "sip:123@registrar.example"]) ∧
    some 2 ≠ c3St.activeCall := by
  refine ⟨rfl, by decide⟩

/-! ## C4 -/

/-- C4, counterexample.  With every session busy, the incoming call is hung
up via a default-constructed `pj.CallOpParam(True)`: the source never
assigns `statusCode`, so no `BUSY_HERE` (486) is sent explicitly —
contradicting the claim that the call is "rejected with status code
BUSY_HERE". -/
theorem c4_counterexample_no_busy_here :
    onIncomingCall [⟨some 5⟩] 7 = ([⟨some 5⟩], .hungUp none) ∧
    IncomingResult.hungUp none ≠ .hungUp (some PJSIP_SC_BUSY_HERE) := by
  refine ⟨rfl, by decide⟩

/-- Auxiliary: the scan of `onIncomingCall` answers on the first session
without an active call, leaving all other sessions untouched. -/
theorem incomingScan_first_free (callId : Nat) (pre : List PoolPhone)
    (p : PoolPhone) (post : List PoolPhone)
    (hbusy : ∀ q ∈ pre, q.activeCall.isSome)
    (hfree : p.activeCall = none) :
    ∀ i : Nat, incomingScan callId (pre ++ p :: post) i =
      some (i + pre.length, pre ++ { activeCall := some callId } :: post) := by
  induction pre with
  | nil =>
    intro i
    simp [incomingScan, hfree]
  | cons q rest ih =>
    intro i
    have hq : q.activeCall.isSome := hbusy q (by simp)
    have hrest : ∀ r ∈ rest, r.activeCall.isSome := fun r hr => hbusy r (by simp [hr])
    have ih' := ih hrest (i + 1)
    simp [incomingScan, hq, ih']
    omega

/-- Auxiliary: the scan of `onIncomingCall` finds no session when every
session has an active call. -/
theorem incomingScan_all_busy (callId : Nat) (phones : List PoolPhone)
    (hbusy : ∀ q ∈ phones, q.activeCall.isSome) :
    ∀ i : Nat, incomingScan callId phones i = none := by
  induction phones with
  | nil => intro i; simp [incomingScan]
  | cons q rest ih =>
    intro i
    have hq : q.activeCall.isSome := hbusy q (by simp)
    have hrest : ∀ r ∈ rest, r.activeCall.isSome := fun r hr => hbusy r (by simp [hr])
    simp [incomingScan, hq, ih hrest]

/-- C4, amended.  On an incoming call the sessions are iterated and the
first one whose active leg is empty answers with status code `200 OK` and
has the call bound as its active leg, all other sessions unchanged; if every
session has an active leg, the incoming call is hung up via a default
`CallOpParam` that carries no explicit status code (in particular,
`BUSY_HERE` is never set). -/
theorem c4_amended_incoming_routing (phones : List PoolPhone) (callId : Nat) :
    (∀ (pre : List PoolPhone) (p : PoolPhone) (post : List PoolPhone),
      phones = pre ++ p :: post →
      (∀ q ∈ pre, q.activeCall.isSome) →
      p.activeCall = none →
      onIncomingCall phones callId =
        (pre ++ { activeCall := some callId } :: post,
          .answered pre.length PJSIP_SC_OK)) ∧
    ((∀ q ∈ phones, q.activeCall.isSome) →
      onIncomingCall phones callId = (phones, .hungUp none)) := by
  constructor
  · intro pre p post hsplit hbusy hfree
    subst hsplit
    simp [onIncomingCall, incomingScan_first_free callId pre p post hbusy hfree 0]
  · intro hbusy
    simp [onIncomingCall, incomingScan_all_busy callId phones hbusy 0]

/-- C4, witness: a pool with one busy and one free session answers on the
free session (index 1) with `200 OK`; a fully busy pool hangs up without an
explicit status code. -/
theorem c4_amended_witness :
    onIncomingCall [⟨some 3⟩, ⟨none⟩] 9 =
      ([⟨some 3⟩, ⟨some 9⟩], .answered 1 PJSIP_SC_OK) ∧
    onIncomingCall [⟨some 3⟩, ⟨some 4⟩] 9 =
      ([⟨some 3⟩, ⟨some 4⟩], .hungUp none) := by
  constructor
  · have h := (c4_amended_incoming_routing [⟨some 3⟩, ⟨none⟩] 9).1
      [⟨some 3⟩] ⟨none⟩ [] rfl (by decide) rfl
    simpa using h
  · exact (c4_amended_incoming_routing [⟨some 3⟩, ⟨some 4⟩] 9).2 (by decide)

/-! ## C8 -/

/-- C8.  While a paired (forwarded) call exists on a session with an active
call, both `say` and `play_audio` return immediately with the
"in forwarding session" rejection: no media player is created, no media
action is emitted toward either leg, and the session state is unchanged. -/
theorem c8_forwarding_rejects_say_and_play
    (st : SoftphoneState) (env : SayEnv) (message : String)
    (media : List Bool) (file : String) (doLoop : Bool)
    (hactive : st.activeCall.isSome)
    (hpaired : st.pairedCall.isSome) :
    softphoneSay st env message = (st, [], .inForwardingSession) ∧
    softphonePlayAudio st media file doLoop =
      some (st, [], .inForwardingSession) := by
  have hno : st.activeCall.isNone = false := by
    cases h : st.activeCall with
    | none => rw [h] at hactive; simp at hactive
    | some _ => simp
  constructor
  · simp [softphoneSay, hno, hpaired]
  · simp [softphonePlayAudio, hno, hpaired]

/-- C8, witness: a concrete forwarding session. -/
theorem c8_witness :
    softphoneSay
      { activeCall := some 1, pairedCall := some 2, mediaPlayer1 := none,
        mediaPlayer2 := none, nextId := 3 }
      ⟨[true], false, [1024]⟩ "x" =
      ({ activeCall := some 1, pairedCall := some 2, mediaPlayer1 := none,
         mediaPlayer2 := none, nextId := 3 }, [], .inForwardingSession) ∧
    softphonePlayAudio
      { activeCall := some 1, pairedCall := some 2, mediaPlayer1 := none,
        mediaPlayer2 := none, nextId := 3 } [true] "f.wav" false =
      some ({ activeCall := some 1, pairedCall := some 2, mediaPlayer1 := none,
              mediaPlayer2 := none, nextId := 3 }, [], .inForwardingSession) :=
  c8_forwarding_rejects_say_and_play _ ⟨[true], false, [1024]⟩ "x" [true] "f.wav"
    false rfl rfl

/-! ## C5 -/

/-- Auxiliary: looking up a key that is absent in a table finds the row
appended for it. -/
theorem nlookup_append_self {α : Type} (t : List (Nat × α)) (cid : Nat) (v : α)
    (h : nlookup t cid = none) : nlookup (t ++ [(cid, v)]) cid = some v := by
  induction t with
  | nil => simp [nlookup]
  | cons kv rest ih =>
    obtain ⟨k, w⟩ := kv
    by_cases hk : k = cid
    · simp [nlookup, hk] at h
    · simp only [nlookup, hk, if_neg, List.cons_append] at h ⊢
      exact ih h

/-- Auxiliary: after the `INSERT OR IGNORE` upsert, the contact's status row
exists and equals the old row, defaulting to `(0, NOT_REACHED)`. -/
theorem nlookup_statusUpsertIgnore (t : List (Nat × StatusRow)) (cid : Nat) :
    nlookup (statusUpsertIgnore t cid) cid =
      some ((nlookup t cid).getD ⟨0, "NOT_REACHED"⟩) := by
  unfold statusUpsertIgnore
  cases h : nlookup t cid with
  | none => simp [nlookup_append_self t cid _ h]
  | some r => simp [h]

/-- Auxiliary: the `num_attempts` increment acts pointwise on the contact's
row and touches nothing else. -/
theorem nlookup_statusIncrement (t : List (Nat × StatusRow)) (cid : Nat) :
    nlookup (statusIncrement t cid) cid =
      (nlookup t cid).map (fun r => ⟨r.numAttempts + 1, r.status⟩) := by
  induction t with
  | nil => simp [nlookup, statusIncrement]
  | cons kv rest ih =>
    obtain ⟨k, w⟩ := kv
    by_cases hk : k = cid
    · subst hk
      simp [nlookup, statusIncrement]
    · simp only [statusIncrement, if_neg hk, nlookup, ih]

/-- C5.  For every valid contact id (present in `contacts` and nonzero, as
SQLite row ids are), an invocation of `call_contact` on which the callee
never picks up still (1) upserts the `(NOT_REACHED, 0)` status row if absent
and (2) increments `num_attempts` by exactly one — the increment precedes
the pickup check — while leaving the status text unchanged (`NOT_REACHED`
stays `NOT_REACHED`) and writing no result row. -/
theorem c5_attempt_counted_before_pickup
    (db : CalleDb) (cid : Nat) (out : CallOutcome) (contact : String × String)
    (hvalid : nlookup db.contacts cid = some contact)
    (hnz : cid ≠ 0)
    (hnopickup : out.pickedUp = false) :
    performOutgoingCallDb db (some cid) out =
      some { db with statusTable := statusIncrement (statusUpsertIgnore db.statusTable cid) cid } ∧
    nlookup (statusIncrement (statusUpsertIgnore db.statusTable cid) cid) cid =
      some ⟨((nlookup db.statusTable cid).getD ⟨0, "NOT_REACHED"⟩).numAttempts + 1,
            ((nlookup db.statusTable cid).getD ⟨0, "NOT_REACHED"⟩).status⟩ := by
  constructor
  · simp [performOutgoingCallDb, hnz, hvalid, hnopickup]
  · rw [nlookup_statusIncrement, nlookup_statusUpsertIgnore]
    rfl

/-- C5, witness: a one-contact database with no status row; the unanswered
attempt yields the row `(num_attempts = 1, NOT_REACHED)`. -/
theorem c5_witness :
    performOutgoingCallDb ⟨[(1, "Ada", "+100")], [], []⟩ (some 1)
        ⟨false, .inProgress, []⟩ =
      some ⟨[(1, "Ada", "+100")], [(1, ⟨1, "NOT_REACHED"⟩)], []⟩ ∧
    nlookup (statusIncrement (statusUpsertIgnore ([] : List (Nat × StatusRow)) 1) 1) 1 =
      some ⟨1, "NOT_REACHED"⟩ := by
  have h := c5_attempt_counted_before_pickup ⟨[(1, "Ada", "+100")], [], []⟩ 1
    ⟨false, .inProgress, []⟩ ("Ada", "+100") rfl (by decide) rfl
  exact ⟨by rw [h.1]; rfl, by rw [h.2]; rfl⟩

/-! ## C6 -/

/-- Auxiliary: `performOutgoingCallDb` succeeds for every nonzero contact id. -/
theorem performOutgoingCallDb_isSome (db : CalleDb) (cid : Nat)
    (out : CallOutcome) (hnz : cid ≠ 0) :
    ∃ db', performOutgoingCallDb db (some cid) out = some db' := by
  simp only [performOutgoingCallDb]
  rw [if_neg hnz]
  cases hc : nlookup db.contacts cid with
  | none => exact ⟨db, rfl⟩
  | some c =>
    by_cases hp : (!out.pickedUp) = true
    · rw [if_pos hp]; exact ⟨_, rfl⟩
    · rw [if_neg hp]
      by_cases hs : out.finalStatus ≠ ExtractionStatus.completed
      · rw [if_pos hs]; exact ⟨_, rfl⟩
      · rw [if_neg hs]; exact ⟨_, rfl⟩

/-- Auxiliary: the `call_contacts` loop processes exactly the given ids, in
order, when none of them is zero. -/
theorem callContactsLoop_trace (outs : Nat → CallOutcome)
    (maximumAttempts : Option Nat) (ids : List Nat)
    (hnz : ∀ cid ∈ ids, cid ≠ 0) :
    ∀ (db : CalleDb) (k : Nat), ∃ db' tr,
      callContactsLoop outs maximumAttempts db ids k = some (db', tr) ∧
      tr.map (·.1) = ids := by
  induction ids with
  | nil => intro db k; exact ⟨db, [], rfl, rfl⟩
  | cons cid rest ih =>
    intro db k
    have hcid : cid ≠ 0 := hnz cid (by simp)
    have hrest : ∀ c ∈ rest, c ≠ 0 := fun c hc => hnz c (by simp [hc])
    cases hd : decideContact db maximumAttempts cid with
    | called =>
      obtain ⟨db₁, hdb₁⟩ := performOutgoingCallDb_isSome db cid (outs k) hcid
      obtain ⟨db', tr, hloop, htr⟩ := ih hrest db₁ (k + 1)
      refine ⟨db', (cid, .called) :: tr, ?_, by simp [htr]⟩
      simp [callContactsLoop, hd, hdb₁, hloop]
    | invalidId =>
      obtain ⟨db', tr, hloop, htr⟩ := ih hrest db k
      refine ⟨db', (cid, .invalidId) :: tr, ?_, by simp [htr]⟩
      simp [callContactsLoop, hd, hloop]
    | alreadyReached =>
      obtain ⟨db', tr, hloop, htr⟩ := ih hrest db k
      refine ⟨db', (cid, .alreadyReached) :: tr, ?_, by simp [htr]⟩
      simp [callContactsLoop, hd, hloop]
    | maxAttemptsReached =>
      obtain ⟨db', tr, hloop, htr⟩ := ih hrest db k
      refine ⟨db', (cid, .maxAttemptsReached) :: tr, ?_, by simp [htr]⟩
      simp [callContactsLoop, hd, hloop]

/-- C6.  `call_contacts` with `contact_ids=None` processes all contact ids
in ascending order (the id trace is the sorted id list, a sorted permutation
of the `contacts` keys); the per-contact decision skips invalid ids, always
calls a contact with no status row, skips a contact whose status row differs
from `NOT_REACHED`, skips once `num_attempts ≥ maximum_attempts` (no limit
when it is `None`), and otherwise performs the call. -/
theorem c6_call_contacts_order_and_decisions
    (db : CalleDb) (maximumAttempts : Option Nat) (outs : Nat → CallOutcome)
    (hnz : ∀ cid ∈ db.contacts.map (·.1), cid ≠ 0) :
    (∃ db' tr, callContacts db none maximumAttempts outs = some (db', tr) ∧
      tr.map (·.1) = (db.contacts.map (·.1)).mergeSort ∧
      List.Sorted (· ≤ ·) (tr.map (·.1)) ∧
      (tr.map (·.1)).Perm (db.contacts.map (·.1))) ∧
    (∀ (d : CalleDb) (cid : Nat),
      (decideContact d maximumAttempts cid = .invalidId ↔
        nlookup d.contacts cid = none) ∧
      (nlookup d.contacts cid ≠ none → nlookup d.statusTable cid = none →
        decideContact d maximumAttempts cid = .called) ∧
      (∀ row, nlookup d.contacts cid ≠ none →
        nlookup d.statusTable cid = some row →
        (decideContact d maximumAttempts cid = .called ↔
          row.status = "NOT_REACHED" ∧
          ∀ m, maximumAttempts = some m → row.numAttempts < m))) := by
  constructor
  · have hnz' : ∀ cid ∈ (db.contacts.map (·.1)).mergeSort, cid ≠ 0 := by
      intro cid hc
      exact hnz cid ((List.mergeSort_perm (db.contacts.map (·.1)) _).mem_iff.mp hc)
    obtain ⟨db', tr, hloop, htr⟩ :=
      callContactsLoop_trace outs maximumAttempts
        ((db.contacts.map (·.1)).mergeSort) hnz' db 0
    refine ⟨db', tr, hloop, htr, ?_, ?_⟩
    · rw [htr]; exact List.sorted_mergeSort' _
    · rw [htr]; exact List.mergeSort_perm _ _
  · intro d cid
    refine ⟨?_, ?_, ?_⟩
    · unfold decideContact
      cases hc : nlookup d.contacts cid with
      | none => simp
      | some c =>
        simp only [Option.some.injEq]
        cases hs : nlookup d.statusTable cid with
        | none => simp
        | some row =>
          by_cases hr : row.status ≠ "NOT_REACHED"
          · simp [hr]
          · cases maximumAttempts with
            | none => simp [hr]
            | some m =>
              by_cases hm : row.numAttempts ≥ m
              · simp [hr, hm]
              · simp [hr, hm]
    · intro hc hs
      unfold decideContact
      cases hcc : nlookup d.contacts cid with
      | none => exact absurd hcc hc
      | some c => simp [hs]
    · intro row hc hs
      cases hcc : nlookup d.contacts cid with
      | none => exact absurd hcc hc
      | some c =>
        by_cases hr : row.status = "NOT_REACHED"
        · cases maximumAttempts with
          | none =>
            have hd : decideContact d none cid = .called := by
              simp [decideContact, hcc, hs, hr]
            rw [hd]
            simp [hr]
          | some m =>
            by_cases hm : row.numAttempts ≥ m
            · have hd : decideContact d (some m) cid = .maxAttemptsReached := by
                simp [decideContact, hcc, hs, hr, hm]
              rw [hd]
              constructor
              · intro h; exact absurd h (by decide)
              · rintro ⟨-, h2⟩
                exact absurd (h2 m rfl) (by omega)
            · have hd : decideContact d (some m) cid = .called := by
                simp [decideContact, hcc, hs, hr, hm]
              rw [hd]
              constructor
              · intro _
                refine ⟨hr, fun m' hm' => ?_⟩
                injection hm' with e
                subst e
                omega
              · intro _; rfl
        · have hd : decideContact d maximumAttempts cid = .alreadyReached := by
            simp [decideContact, hcc, hs, hr]
          rw [hd]
          constructor
          · intro h; exact absurd h (by decide)
          · intro h; exact absurd h.1 hr

/-- C6, witness: a three-contact database (listed unsorted) where contact 2
was already reached, contact 3 has exhausted its attempts and contact 1 has
no status row: the trace is ascending and only contact 1 is called. -/
theorem c6_witness :
    ∃ db' tr,
      callContacts
        ⟨[(3, "C", "+3"), (1, "A", "+1"), (2, "B", "+2")],
         [(2, ⟨1, "COMPLETED"⟩), (3, ⟨2, "NOT_REACHED"⟩)], []⟩
        none (some 2) (fun _ => ⟨false, .inProgress, []⟩) = some (db', tr) ∧
      tr.map (·.1) = [1, 2, 3] := by
  obtain ⟨db', tr, hrun, htr, hsorted, hperm⟩ :=
    (c6_call_contacts_order_and_decisions
      ⟨[(3, "C", "+3"), (1, "A", "+1"), (2, "B", "+2")],
       [(2, ⟨1, "COMPLETED"⟩), (3, ⟨2, "NOT_REACHED"⟩)], []⟩
      (some 2) (fun _ => ⟨false, .inProgress, []⟩) (by decide)).1
  refine ⟨db', tr, hrun, ?_⟩
  have hperm' : (tr.map (·.1)).Perm [1, 2, 3] := by
    refine hperm.trans ?_
    decide
  exact List.eq_of_perm_of_sorted hperm' hsorted (by decide)

/-! ## C7 -/

/-- Auxiliary: a recording pass that immediately observes a successful
recording returns its dBFS, advancing one observation, with no retry sleep. -/
theorem recordLoop_ok_step (menv : Nat → MediaObs) (timeout fuel waited n sleeps : Nat)
    (d : Int) (hw : waited < timeout) (hm : menv n = .recordedOk d) :
    recordLoop menv timeout (fuel + 1) waited n sleeps = (some d, n + 1, sleeps) := by
  simp [recordLoop, hw, hm]

/-- Auxiliary: a recording pass that loses the call during recording fails,
advancing one observation, with no retry sleep. -/
theorem recordLoop_lost_step (menv : Nat → MediaObs) (timeout fuel waited n sleeps : Nat)
    (hw : waited < timeout) (hm : menv n = .lostDuringRecording) :
    recordLoop menv timeout (fuel + 1) waited n sleeps = (none, n + 1, sleeps) := by
  simp [recordLoop, hw, hm]

/-- Auxiliary: a successful recording at the default timeout. -/
theorem recordIncomingAudio_ok (menv : Nat → MediaObs) (n : Nat) (d : Int)
    (hm : menv n = .recordedOk d) :
    recordIncomingAudio menv n unavailableMediaTimeoutDefault = (some d, n + 1, 0) := by
  unfold recordIncomingAudio
  exact recordLoop_ok_step menv unavailableMediaTimeoutDefault
    unavailableMediaTimeoutDefault 0 n 0 d (by unfold unavailableMediaTimeoutDefault; omega) hm

/-- Auxiliary: a failed recording at the default timeout. -/
theorem recordIncomingAudio_lost (menv : Nat → MediaObs) (n : Nat)
    (hm : menv n = .lostDuringRecording) :
    recordIncomingAudio menv n unavailableMediaTimeoutDefault = (none, n + 1, 0) := by
  unfold recordIncomingAudio
  exact recordLoop_lost_step menv unavailableMediaTimeoutDefault
    unavailableMediaTimeoutDefault 0 n 0 (by unfold unavailableMediaTimeoutDefault; omega) hm

/-- Auxiliary: when the media is never active, the retry loop sleeps one
second per pass until `waited_on_media` reaches the timeout, then fails. -/
theorem recordLoop_never_active (menv : Nat → MediaObs) (timeout : Nat)
    (hmenv : ∀ k, menv k = .noActiveMedia) :
    ∀ (fuel waited n sleeps : Nat), waited ≤ timeout →
      fuel = timeout + 1 - waited →
      recordLoop menv timeout fuel waited n sleeps =
        (none, n + (timeout - waited), sleeps + (timeout - waited)) := by
  intro fuel
  induction fuel with
  | zero => intro waited n sleeps hw hf; omega
  | succ f ih =>
    intro waited n sleeps hw hf
    by_cases hlt : waited < timeout
    · have hstep : recordLoop menv timeout (f + 1) waited n sleeps =
          recordLoop menv timeout f (waited + 1) (n + 1) (sleeps + 1) := by
        simp [recordLoop, hlt, hmenv n]
      rw [hstep, ih (waited + 1) (n + 1) (sleeps + 1) (by omega) (by omega)]
      simp only [Prod.mk.injEq]
      exact ⟨trivial, by omega, by omega⟩
    · have hw' : ¬ waited < timeout := hlt
      have : timeout - waited = 0 := by omega
      simp [recordLoop, hw', this]

/-- Auxiliary: with the media never active, `__record_incoming_audio` at the
default timeout reports failure after exactly 60 one-second retries. -/
theorem recordIncomingAudio_never_active (menv : Nat → MediaObs) (n : Nat)
    (hmenv : ∀ k, menv k = .noActiveMedia) :
    recordIncomingAudio menv n unavailableMediaTimeoutDefault = (none, n + 60, 60) := by
  unfold recordIncomingAudio
  have h := recordLoop_never_active menv unavailableMediaTimeoutDefault hmenv
    (unavailableMediaTimeoutDefault + 1) 0 n 0 (by omega) (by omega)
  simpa [unavailableMediaTimeoutDefault] using h

/-- Auxiliary: if the silence-skip loop sees `pre.length` further silent
recordings and then a failed recording (with the phone intact at every
check), it returns the interruption sentinel. -/
theorem listenSkip_interrupted (menv : Nat → MediaObs) (penv : Nat → Bool × Bool)
    (sT : Int) (pre : List Int) :
    ∀ (fuel n pk : Nat) (lastDb : Int), lastDb < sT →
      (∀ i, i < pre.length →
        menv (n + i) = .recordedOk (pre.getD i 0) ∧ pre.getD i 0 < sT) →
      menv (n + pre.length) = .lostDuringRecording →
      (∀ j, j ≤ pre.length → penv (pk + j) = (true, false)) →
      pre.length + 1 ≤ fuel →
      listenSkip menv penv sT fuel lastDb n pk = some (.inl "##INTERRUPTED##") := by
  induction pre with
  | nil =>
    intro fuel n pk lastDb hdb _ hlost hpenv hfuel
    obtain ⟨f, rfl⟩ : ∃ f, fuel = f + 1 := ⟨fuel - 1, by omega⟩
    have hp0 : penv pk = (true, false) := by simpa using hpenv 0 (by omega)
    have hrec := recordIncomingAudio_lost menv n (by simpa using hlost)
    simp [listenSkip, hdb, hp0, hrec]
  | cons d pre' ih =>
    intro fuel n pk lastDb hdb hpre hlost hpenv hfuel
    obtain ⟨f, rfl⟩ : ∃ f, fuel = f + 1 := ⟨fuel - 1, by omega⟩
    have hp0 : penv pk = (true, false) := by simpa using hpenv 0 (by omega)
    have h0 := hpre 0 (by simp)
    have hrec := recordIncomingAudio_ok menv n d (by simpa using h0.1)
    have hrest : listenSkip menv penv sT f d (n + 1) (pk + 1) =
        some (.inl "##INTERRUPTED##") := by
      refine ih f (n + 1) (pk + 1) d (by simpa using h0.2) ?_ ?_ ?_ (by simp at hfuel ⊢; omega)
      · intro i hi
        have := hpre (i + 1) (by simp; omega)
        constructor
        · rw [show n + 1 + i = n + (i + 1) by omega]
          simpa using this.1
        · simpa using this.2
      · rw [show n + 1 + pre'.length = n + (d :: pre').length by simp; omega]
        exact hlost
      · intro j hj
        rw [show pk + 1 + j = pk + (j + 1) by omega]
        exact hpenv (j + 1) (by simp; omega)
    simp [listenSkip, hdb, hp0, hrec, hrest]

/-- Auxiliary: if, after `pre.length` silent recordings, a silence-skip
check observes that the active call is gone or a paired call appeared, the
loop returns `""`. -/
theorem listenSkip_gone (menv : Nat → MediaObs) (penv : Nat → Bool × Bool)
    (sT : Int) (pre : List Int) (act prd : Bool) (hbad : (!act || prd) = true) :
    ∀ (fuel n pk : Nat) (lastDb : Int), lastDb < sT →
      (∀ i, i < pre.length →
        menv (n + i) = .recordedOk (pre.getD i 0) ∧ pre.getD i 0 < sT) →
      (∀ j, j < pre.length → penv (pk + j) = (true, false)) →
      penv (pk + pre.length) = (act, prd) →
      pre.length + 1 ≤ fuel →
      listenSkip menv penv sT fuel lastDb n pk = some (.inl "") := by
  induction pre with
  | nil =>
    intro fuel n pk lastDb hdb _ _ hpbad hfuel
    obtain ⟨f, rfl⟩ : ∃ f, fuel = f + 1 := ⟨fuel - 1, by omega⟩
    have hp0 : penv pk = (act, prd) := by simpa using hpbad
    simp [listenSkip, hdb, hp0, hbad]
  | cons d pre' ih =>
    intro fuel n pk lastDb hdb hpre hpgood hpbad hfuel
    obtain ⟨f, rfl⟩ : ∃ f, fuel = f + 1 := ⟨fuel - 1, by omega⟩
    have hp0 : penv pk = (true, false) := by simpa using hpgood 0 (by simp)
    have h0 := hpre 0 (by simp)
    have hrec := recordIncomingAudio_ok menv n d (by simpa using h0.1)
    have hrest : listenSkip menv penv sT f d (n + 1) (pk + 1) = some (.inl "") := by
      refine ih f (n + 1) (pk + 1) d (by simpa using h0.2) ?_ ?_ ?_ (by simp at hfuel ⊢; omega)
      · intro i hi
        have := hpre (i + 1) (by simp; omega)
        constructor
        · rw [show n + 1 + i = n + (i + 1) by omega]
          simpa using this.1
        · simpa using this.2
      · intro j hj
        rw [show pk + 1 + j = pk + (j + 1) by omega]
        exact hpgood (j + 1) (by simp; omega)
      · rw [show pk + 1 + pre'.length = pk + (d :: pre').length by simp; omega]
        exact hpbad
    simp [listenSkip, hdb, hp0, hrec, hrest]

/-- Auxiliary: after `pre.length` silent recordings followed by a recording
at or above the threshold, the silence-skip loop exits with that dBFS and
the advanced observation indices. -/
theorem listenSkip_exit (menv : Nat → MediaObs) (penv : Nat → Bool × Bool)
    (sT : Int) (pre : List Int) (dL : Int) (hloud : ¬ dL < sT) :
    ∀ (fuel n pk : Nat) (lastDb : Int), lastDb < sT →
      (∀ i, i < pre.length →
        menv (n + i) = .recordedOk (pre.getD i 0) ∧ pre.getD i 0 < sT) →
      menv (n + pre.length) = .recordedOk dL →
      (∀ j, j ≤ pre.length → penv (pk + j) = (true, false)) →
      pre.length + 2 ≤ fuel →
      listenSkip menv penv sT fuel lastDb n pk =
        some (.inr (dL, n + pre.length + 1, pk + pre.length + 1)) := by
  induction pre with
  | nil =>
    intro fuel n pk lastDb hdb _ hrecL hpenv hfuel
    obtain ⟨f, rfl⟩ : ∃ f, fuel = f + 1 := ⟨fuel - 1, by omega⟩
    obtain ⟨f', rfl⟩ : ∃ f', f = f' + 1 := ⟨f - 1, by omega⟩
    have hp0 : penv pk = (true, false) := by simpa using hpenv 0 (by omega)
    have hrec := recordIncomingAudio_ok menv n dL (by simpa using hrecL)
    simp [listenSkip, hdb, hp0, hrec, hloud]
  | cons d pre' ih =>
    intro fuel n pk lastDb hdb hpre hrecL hpenv hfuel
    obtain ⟨f, rfl⟩ : ∃ f, fuel = f + 1 := ⟨fuel - 1, by omega⟩
    have hp0 : penv pk = (true, false) := by simpa using hpenv 0 (by omega)
    have h0 := hpre 0 (by simp)
    have hrec := recordIncomingAudio_ok menv n d (by simpa using h0.1)
    have hrest : listenSkip menv penv sT f d (n + 1) (pk + 1) =
        some (.inr (dL, n + 1 + pre'.length + 1, pk + 1 + pre'.length + 1)) := by
      refine ih f (n + 1) (pk + 1) d (by simpa using h0.2) ?_ ?_ ?_ (by simp at hfuel ⊢; omega)
      · intro i hi
        have := hpre (i + 1) (by simp; omega)
        constructor
        · rw [show n + 1 + i = n + (i + 1) by omega]
          simpa using this.1
        · simpa using this.2
      · rw [show n + 1 + pre'.length = n + (d :: pre').length by simp; omega]
        exact hrecL
      · intro j hj
        rw [show pk + 1 + j = pk + (j + 1) by omega]
        exact hpenv (j + 1) (by simp; omega)
    rw [show n + 1 + pre'.length + 1 = n + (d :: pre').length + 1 by simp; omega] at hrest
    rw [show pk + 1 + pre'.length + 1 = pk + (d :: pre').length + 1 by simp; omega] at hrest
    simp [listenSkip, hdb, hp0, hrec, hrest]

/-- Auxiliary: if the speech-collect loop sees `L.length` recordings each
above the adaptive threshold and then a failed recording, it returns the
interruption sentinel. -/
theorem listenCollect_interrupted (menv : Nat → MediaObs) (penv : Nat → Bool × Bool)
    (L : List Int) :
    ∀ (fuel n pk : Nat) (lastDb aT : Int), lastDb > aT →
      (∀ i, i < L.length →
        menv (n + i) = .recordedOk (L.getD i 0) ∧
        L.getD i 0 > (lastDb :: L).getD i 0 - 5) →
      menv (n + L.length) = .lostDuringRecording →
      (∀ j, j ≤ L.length → penv (pk + j) = (true, false)) →
      L.length + 1 ≤ fuel →
      listenCollect menv penv fuel lastDb aT n pk = some (.inl "##INTERRUPTED##") := by
  induction L with
  | nil =>
    intro fuel n pk lastDb aT hdb _ hlost hpenv hfuel
    obtain ⟨f, rfl⟩ : ∃ f, fuel = f + 1 := ⟨fuel - 1, by omega⟩
    have hp0 : penv pk = (true, false) := by simpa using hpenv 0 (by omega)
    have hrec := recordIncomingAudio_lost menv n (by simpa using hlost)
    simp [listenCollect, hdb, hp0, hrec]
  | cons d L' ih =>
    intro fuel n pk lastDb aT hdb hL hlost hpenv hfuel
    obtain ⟨f, rfl⟩ : ∃ f, fuel = f + 1 := ⟨fuel - 1, by omega⟩
    have hp0 : penv pk = (true, false) := by simpa using hpenv 0 (by omega)
    have h0 := hL 0 (by simp)
    have hrec := recordIncomingAudio_ok menv n d (by simpa using h0.1)
    have hd5 : d > lastDb - 5 := by simpa using h0.2
    have hrest : listenCollect menv penv f d (lastDb - 5) (n + 1) (pk + 1) =
        some (.inl "##INTERRUPTED##") := by
      refine ih f (n + 1) (pk + 1) d (lastDb - 5) hd5 ?_ ?_ ?_ (by simp at hfuel ⊢; omega)
      · intro i hi
        have := hL (i + 1) (by simp; omega)
        constructor
        · rw [show n + 1 + i = n + (i + 1) by omega]
          simpa using this.1
        · simpa using this.2
      · rw [show n + 1 + L'.length = n + (d :: L').length by simp; omega]
        exact hlost
      · intro j hj
        rw [show pk + 1 + j = pk + (j + 1) by omega]
        exact hpenv (j + 1) (by simp; omega)
    simp [listenCollect, hdb, hp0, hrec, hrest]

/-- Auxiliary: if, after `L.length` loud recordings, a speech-collect check
observes that the active call is gone or a paired call appeared, the loop
returns `""`. -/
theorem listenCollect_gone (menv : Nat → MediaObs) (penv : Nat → Bool × Bool)
    (L : List Int) (act prd : Bool) (hbad : (!act || prd) = true) :
    ∀ (fuel n pk : Nat) (lastDb aT : Int), lastDb > aT →
      (∀ i, i < L.length →
        menv (n + i) = .recordedOk (L.getD i 0) ∧
        L.getD i 0 > (lastDb :: L).getD i 0 - 5) →
      (∀ j, j < L.length → penv (pk + j) = (true, false)) →
      penv (pk + L.length) = (act, prd) →
      L.length + 1 ≤ fuel →
      listenCollect menv penv fuel lastDb aT n pk = some (.inl "") := by
  induction L with
  | nil =>
    intro fuel n pk lastDb aT hdb _ _ hpbad hfuel
    obtain ⟨f, rfl⟩ : ∃ f, fuel = f + 1 := ⟨fuel - 1, by omega⟩
    have hp0 : penv pk = (act, prd) := by simpa using hpbad
    simp [listenCollect, hdb, hp0, hbad]
  | cons d L' ih =>
    intro fuel n pk lastDb aT hdb hL hpgood hpbad hfuel
    obtain ⟨f, rfl⟩ : ∃ f, fuel = f + 1 := ⟨fuel - 1, by omega⟩
    have hp0 : penv pk = (true, false) := by simpa using hpgood 0 (by simp)
    have h0 := hL 0 (by simp)
    have hrec := recordIncomingAudio_ok menv n d (by simpa using h0.1)
    have hd5 : d > lastDb - 5 := by simpa using h0.2
    have hrest : listenCollect menv penv f d (lastDb - 5) (n + 1) (pk + 1) =
        some (.inl "") := by
      refine ih f (n + 1) (pk + 1) d (lastDb - 5) hd5 ?_ ?_ ?_ (by simp at hfuel ⊢; omega)
      · intro i hi
        have := hL (i + 1) (by simp; omega)
        constructor
        · rw [show n + 1 + i = n + (i + 1) by omega]
          simpa using this.1
        · simpa using this.2
      · intro j hj
        rw [show pk + 1 + j = pk + (j + 1) by omega]
        exact hpgood (j + 1) (by simp; omega)
      · rw [show pk + 1 + L'.length = pk + (d :: L').length by simp; omega]
        exact hpbad
    simp [listenCollect, hdb, hp0, hrec, hrest]

/-- C7.  `listen` returns the sentinel `"##INTERRUPTED##"` whenever an
underlying recording attempt fails — after any number of silent samples
(part 1) and likewise after speech collection has begun (part 3) — and
returns `""` when a loop check finds the active call gone or a paired call
present, in the silence-skip phase (part 2) and in the speech-collect phase
(part 4); and a recording attempt that never finds the call media active
retries once per second up to the `unavailable_media_timeout` default of 60
seconds — performing exactly 60 one-second retry sleeps — before reporting
failure (part 5). -/
theorem c7_listen_errors_and_record_retry :
    (∀ (menv : Nat → MediaObs) (penv : Nat → Bool × Bool) (sT : Int)
       (transcript : String) (fuel : Nat) (pre : List Int),
      (∀ i, i < pre.length →
        menv i = .recordedOk (pre.getD i 0) ∧ pre.getD i 0 < sT) →
      menv pre.length = .lostDuringRecording →
      (∀ j, j < pre.length → penv j = (true, false)) →
      pre.length ≤ fuel →
      softphoneListen menv penv sT transcript fuel = some "##INTERRUPTED##") ∧
    (∀ (menv : Nat → MediaObs) (penv : Nat → Bool × Bool) (sT : Int)
       (transcript : String) (fuel : Nat) (d0 : Int) (pre : List Int) (act prd : Bool),
      (!act || prd) = true →
      menv 0 = .recordedOk d0 → d0 < sT →
      (∀ i, i < pre.length →
        menv (1 + i) = .recordedOk (pre.getD i 0) ∧ pre.getD i 0 < sT) →
      (∀ j, j < pre.length → penv j = (true, false)) →
      penv pre.length = (act, prd) →
      pre.length + 1 ≤ fuel →
      softphoneListen menv penv sT transcript fuel = some "") ∧
    (∀ (menv : Nat → MediaObs) (penv : Nat → Bool × Bool) (sT : Int)
       (transcript : String) (fuel : Nat) (d0 : Int) (pre : List Int)
       (dL : Int) (L : List Int),
      menv 0 = .recordedOk d0 → d0 < sT →
      (∀ i, i < pre.length →
        menv (1 + i) = .recordedOk (pre.getD i 0) ∧ pre.getD i 0 < sT) →
      menv (1 + pre.length) = .recordedOk dL → dL > sT →
      (∀ i, i < L.length →
        menv (pre.length + 2 + i) = .recordedOk (L.getD i 0) ∧
        L.getD i 0 > (dL :: L).getD i 0 - 5) →
      menv (pre.length + 2 + L.length) = .lostDuringRecording →
      (∀ j, penv j = (true, false)) →
      pre.length + 2 ≤ fuel → L.length + 1 ≤ fuel →
      softphoneListen menv penv sT transcript fuel = some "##INTERRUPTED##") ∧
    (∀ (menv : Nat → MediaObs) (penv : Nat → Bool × Bool) (sT : Int)
       (transcript : String) (fuel : Nat) (d0 : Int) (pre : List Int)
       (dL : Int) (L : List Int) (act prd : Bool),
      (!act || prd) = true →
      menv 0 = .recordedOk d0 → d0 < sT →
      (∀ i, i < pre.length →
        menv (1 + i) = .recordedOk (pre.getD i 0) ∧ pre.getD i 0 < sT) →
      menv (1 + pre.length) = .recordedOk dL → dL > sT →
      (∀ i, i < L.length →
        menv (pre.length + 2 + i) = .recordedOk (L.getD i 0) ∧
        L.getD i 0 > (dL :: L).getD i 0 - 5) →
      (∀ j, j < pre.length + 1 + L.length → penv j = (true, false)) →
      penv (pre.length + 1 + L.length) = (act, prd) →
      pre.length + 2 ≤ fuel → L.length + 1 ≤ fuel →
      softphoneListen menv penv sT transcript fuel = some "") ∧
    (unavailableMediaTimeoutDefault = 60 ∧
      ∀ (menv : Nat → MediaObs) (n : Nat),
        (∀ k, menv k = .noActiveMedia) →
        recordIncomingAudio menv n unavailableMediaTimeoutDefault =
          (none, n + 60, 60)) := by
  refine ⟨?_, ?_, ?_, ?_, rfl, recordIncomingAudio_never_active⟩
  · intro menv penv sT transcript fuel pre hpre hlost hpenv hfuel
    cases pre with
    | nil =>
      have hrec := recordIncomingAudio_lost menv 0 (by simpa using hlost)
      simp [softphoneListen, hrec]
    | cons d0 pre' =>
      have h0 := hpre 0 (by simp)
      have hrec0 := recordIncomingAudio_ok menv 0 d0 (by simpa using h0.1)
      have hskip : listenSkip menv penv sT fuel d0 1 0 =
          some (.inl "##INTERRUPTED##") := by
        refine listenSkip_interrupted menv penv sT pre' fuel 1 0 d0
          (by simpa using h0.2) ?_ ?_ ?_
          (by simp only [List.length_cons] at hfuel; omega)
        · intro i hi
          have := hpre (i + 1) (by simp; omega)
          exact ⟨by simpa [Nat.add_comm] using this.1, by simpa using this.2⟩
        · have : (1 : Nat) + pre'.length = (d0 :: pre').length := by simp; omega
          rw [this]
          exact hlost
        · intro j hj
          have := hpenv j (by simp; omega)
          simpa using this
      simp [softphoneListen, hrec0, hskip]
  · intro menv penv sT transcript fuel d0 pre act prd hbad hm0 hd0 hpre hpgood hpbad hfuel
    have hrec0 := recordIncomingAudio_ok menv 0 d0 hm0
    have hskip : listenSkip menv penv sT fuel d0 1 0 = some (.inl "") := by
      refine listenSkip_gone menv penv sT pre act prd hbad fuel 1 0 d0 hd0 hpre ?_ ?_
        (by omega)
      · intro j hj
        simpa using hpgood j hj
      · simpa using hpbad
    simp [softphoneListen, hrec0, hskip]
  · intro menv penv sT transcript fuel d0 pre dL L hm0 hd0 hpre hmL hdL hL hlost hpenv
      hfuel hfuelL
    have hrec0 := recordIncomingAudio_ok menv 0 d0 hm0
    have hskip : listenSkip menv penv sT fuel d0 1 0 =
        some (.inr (dL, 1 + pre.length + 1, 0 + pre.length + 1)) := by
      refine listenSkip_exit menv penv sT pre dL (by omega) fuel 1 0 d0 hd0 hpre hmL
        ?_ (by omega)
      intro j hj
      exact hpenv (0 + j)
    have hcoll : listenCollect menv penv fuel dL sT (1 + pre.length + 1)
        (pre.length + 1) = some (.inl "##INTERRUPTED##") := by
      refine listenCollect_interrupted menv penv L fuel (1 + pre.length + 1)
        (pre.length + 1) dL sT (by omega) ?_ ?_ ?_ hfuelL
      · intro i hi
        have := hL i hi
        refine ⟨?_, this.2⟩
        rw [show 1 + pre.length + 1 + i = pre.length + 2 + i by omega]
        exact this.1
      · rw [show 1 + pre.length + 1 + L.length = pre.length + 2 + L.length by omega]
        exact hlost
      · intro j hj
        exact hpenv (pre.length + 1 + j)
    simp [softphoneListen, hrec0, hskip, hcoll]
  · intro menv penv sT transcript fuel d0 pre dL L act prd hbad hm0 hd0 hpre hmL hdL hL
      hpgood hpbad hfuel hfuelL
    have hrec0 := recordIncomingAudio_ok menv 0 d0 hm0
    have hskip : listenSkip menv penv sT fuel d0 1 0 =
        some (.inr (dL, 1 + pre.length + 1, 0 + pre.length + 1)) := by
      refine listenSkip_exit menv penv sT pre dL (by omega) fuel 1 0 d0 hd0 hpre hmL
        ?_ (by omega)
      intro j hj
      have := hpgood (0 + j) (by omega)
      simpa using this
    have hcoll : listenCollect menv penv fuel dL sT (1 + pre.length + 1)
        (pre.length + 1) = some (.inl "") := by
      refine listenCollect_gone menv penv L act prd hbad fuel (1 + pre.length + 1)
        (pre.length + 1) dL sT (by omega) ?_ ?_ ?_ hfuelL
      · intro i hi
        have := hL i hi
        refine ⟨?_, this.2⟩
        rw [show 1 + pre.length + 1 + i = pre.length + 2 + i by omega]
        exact this.1
      · intro j hj
        exact hpgood (pre.length + 1 + j) (by omega)
      · exact hpbad
    simp [softphoneListen, hrec0, hskip, hcoll]

/-- C7, witness: concrete environments exercising an immediate recording
failure (sentinel), a disappeared call after one silent sample (empty
string), and a permanently unavailable medium (60 retries, then failure). -/
theorem c7_witness :
    softphoneListen (fun _ => .lostDuringRecording) (fun _ => (true, false))
      (-20) "hello" 5 = some "##INTERRUPTED##" ∧
    softphoneListen
      (fun n => if n = 0 then .recordedOk (-30) else .lostDuringRecording)
      (fun _ => (false, false)) (-20) "hello" 5 = some "" ∧
    recordIncomingAudio (fun _ => .noActiveMedia) 0 unavailableMediaTimeoutDefault =
      (none, 60, 60) := by
  refine ⟨?_, ?_, ?_⟩
  · exact c7_listen_errors_and_record_retry.1 (fun _ => .lostDuringRecording)
      (fun _ => (true, false)) (-20) "hello" 5 []
      (by intro i hi; simp at hi) rfl (by intro j hj; simp at hj) (by simp)
  · exact c7_listen_errors_and_record_retry.2.1
      (fun n => if n = 0 then .recordedOk (-30) else .lostDuringRecording)
      (fun _ => (false, false)) (-20) "hello" 5 (-30) [] false false rfl rfl
      (by omega) (by intro i hi; simp at hi) (by intro j hj; simp at hj) rfl
      (by simp)
  · have h := c7_listen_errors_and_record_retry.2.2.2.2.2
      (fun _ => .noActiveMedia) 0 (fun _ => rfl)
    simpa using h

/-! ## C9 -/

mutual

/-- All conversation items syntactically contained in an item (the item
itself and, for choice-like items, everything inside its option lists). -/
def subItems : ConversationItem → List ConversationItem
  | .choice cp opts b => .choice cp opts b :: subItemsOpts opts
  | .functionChoice mo f opts b => .functionChoice mo f opts b :: subItemsOpts opts
  | i => [i]

def subItemsOpts : List (String × List ConversationItem) → List ConversationItem
  | [] => []
  | (_, l) :: rest => subItemsList l ++ subItemsOpts rest

def subItemsList : List ConversationItem → List ConversationItem
  | [] => []
  | i :: rest => subItems i ++ subItemsList rest

end

/-- All conversation items reachable by the walker from a state: the current
item, the remaining queue, and every item of every configured path. -/
def stateItems (st : ExtractorState) : List ConversationItem :=
  subItems st.currentItem ++ subItemsList st.items ++ subItemsOpts st.paths

/-- Every item contains itself. -/
theorem self_mem_subItems (i : ConversationItem) : i ∈ subItems i := by
  cases i <;> simp [subItems]

/-- Items of a successful option lookup are contained in the options. -/
theorem subItemsList_subset_subItemsOpts
    (opts : List (String × List ConversationItem)) (ch : String)
    (l : List ConversationItem) (h : alookup opts ch = some l) :
    ∀ x ∈ subItemsList l, x ∈ subItemsOpts opts := by
  induction opts with
  | nil => simp [alookup] at h
  | cons kv rest ih =>
    obtain ⟨k, v⟩ := kv
    by_cases hk : k = ch
    · subst hk
      simp [alookup] at h
      subst h
      intro x hx
      simp [subItemsOpts, hx]
    · simp only [alookup, if_neg hk] at h
      intro x hx
      simp [subItemsOpts, ih h x hx]

/-- The state carried by a `StepCont`. -/
def StepCont.state : StepCont → ExtractorState
  | .next s => s
  | .stop s => s
  | .finish s => s

/-- Advancing past an item preserves the chat history and does not enlarge
the set of reachable items. -/
theorem advanceItem_state_spec (st : ExtractorState) (ab : Bool) :
    (advanceItem st ab).state.chatHistory = st.chatHistory ∧
    (∀ x ∈ stateItems (advanceItem st ab).state, x ∈ stateItems st) := by
  unfold advanceItem
  cases hit : st.items with
  | nil =>
    cases ab <;> simp [StepCont.state, stateItems, hit]
  | cons i rest =>
    by_cases hint : st.currentItem.interactive = true
    · simp only [hint, if_pos, StepCont.state]
      refine ⟨by simp, ?_⟩
      intro x hx
      simp only [stateItems, List.mem_append] at hx ⊢
      rw [hit]
      simp only [subItemsList, List.mem_append]
      tauto
    · simp only [hint, if_neg, Bool.false_eq_true, StepCont.state]
      refine ⟨by simp, ?_⟩
      intro x hx
      simp only [stateItems, List.mem_append] at hx ⊢
      rw [hit]
      simp only [subItemsList, List.mem_append]
      tauto

/-- C9.  For every Read item the walker processes, the emitted fragment is
exactly the pair `(item.text ++ "\n", "read")` and the same string is
appended to the chat history as an assistant message: in any successful run
of the item loop, the chat history only grows, and every fragment of kind
`"read"` equals `t ++ "\n"` for a read item `t` reachable from the starting
state, with `AIMessage (t ++ "\n")` present in the final chat history. -/
theorem c9_read_fragment_exact (ora plug : Nat → String) :
    ∀ (fuel : Nat) (st : ExtractorState) (input : String) (aborted : Bool)
      (rs : List (String × String)) (st' : ExtractorState),
      runItems ora plug fuel st input aborted = some (rs, st') →
      (∃ tail, st'.chatHistory = st.chatHistory ++ tail) ∧
      (∀ m, (m, "read") ∈ rs →
        (∃ t b, ConversationItem.read t b ∈ stateItems st ∧ m = t ++ "\n") ∧
        ChatMessage.ai m ∈ st'.chatHistory) := by
  intro fuel
  induction fuel with
  | zero => intro st input aborted rs st' h; simp [runItems] at h
  | succ f ih =>
    intro st input aborted rs st' h
    cases hcur : st.currentItem with
    | read t b =>
      simp only [runItems, hcur] at h
      split at h
      case _ st2 hadv =>
        have hspec := advanceItem_state_spec
          { st with chatHistory := st.chatHistory ++ [ChatMessage.ai (t ++ "\n")],
                    currentItem := ConversationItem.read t b } aborted
        rw [hadv] at hspec
        simp only [StepCont.state] at hspec
        have hchat2 : st2.chatHistory = st.chatHistory ++ [ChatMessage.ai (t ++ "\n")] := by
          simpa using hspec.1
        have hmono : ∀ x ∈ stateItems st2, x ∈ stateItems st := by
          intro x hx
          have hx' := hspec.2 x hx
          simpa [stateItems, hcur] using hx'
        split at h
        · simp at h
        case _ rs' st'' hrec =>
          simp only [Option.some.injEq, Prod.mk.injEq] at h
          obtain ⟨hrs, hst⟩ := h
          subst hrs
          obtain ⟨⟨tail, htail⟩, hread⟩ := ih st2 input aborted rs' st'' hrec
          constructor
          · refine ⟨[ChatMessage.ai (t ++ "\n")] ++ tail, ?_⟩
            rw [← hst, htail, hchat2]
            simp
          · intro m hm
            rcases List.mem_cons.mp hm with hm | hm
            · simp only [Prod.mk.injEq] at hm
              obtain ⟨hmeq, -⟩ := hm
              subst hmeq
              refine ⟨⟨t, b, ?_, rfl⟩, ?_⟩
              · simp [stateItems, hcur, subItems]
              · rw [← hst, htail, hchat2]
                simp
            · obtain ⟨⟨t' , b', hmem, heq⟩, hhist⟩ := hread m hm
              refine ⟨⟨t', b', hmono _ hmem, heq⟩, ?_⟩
              rw [← hst]
              exact hhist
      case _ st2 hadv =>
        have hspec := advanceItem_state_spec
          { st with chatHistory := st.chatHistory ++ [ChatMessage.ai (t ++ "\n")],
                    currentItem := ConversationItem.read t b } aborted
        rw [hadv] at hspec
        simp only [StepCont.state] at hspec
        have hchat2 : st2.chatHistory = st.chatHistory ++ [ChatMessage.ai (t ++ "\n")] := by
          simpa using hspec.1
        simp only [Option.some.injEq, Prod.mk.injEq] at h
        obtain ⟨hrs, hst⟩ := h
        subst hrs
        constructor
        · refine ⟨[ChatMessage.ai (t ++ "\n")], ?_⟩
          rw [← hst]
          exact hchat2
        · intro m hm
          simp only [List.mem_singleton, Prod.mk.injEq] at hm
          obtain ⟨hmeq, -⟩ := hm
          subst hmeq
          refine ⟨⟨t, b, by simp [stateItems, hcur, subItems], rfl⟩, ?_⟩
          rw [← hst, hchat2]
          simp
      case _ st2 hadv =>
        have hspec := advanceItem_state_spec
          { st with chatHistory := st.chatHistory ++ [ChatMessage.ai (t ++ "\n")],
                    currentItem := ConversationItem.read t b } aborted
        rw [hadv] at hspec
        simp only [StepCont.state] at hspec
        have hchat2 : st2.chatHistory = st.chatHistory ++ [ChatMessage.ai (t ++ "\n")] := by
          simpa using hspec.1
        simp only [Option.some.injEq, Prod.mk.injEq] at h
        obtain ⟨hrs, hst⟩ := h
        subst hrs
        constructor
        · refine ⟨[ChatMessage.ai (t ++ "\n")], ?_⟩
          rw [← hst]
          exact hchat2
        · intro m hm
          simp only [List.mem_singleton, Prod.mk.injEq] at hm
          obtain ⟨hmeq, -⟩ := hm
          subst hmeq
          refine ⟨⟨t, b, by simp [stateItems, hcur, subItems], rfl⟩, ?_⟩
          rw [← hst, hchat2]
          simp
    | prompt p b =>
      simp only [runItems, hcur] at h
      split at h
      case _ st2 hadv =>
        have hspec := advanceItem_state_spec
          { st with llmCount := st.llmCount + 1,
                    chatHistory := st.chatHistory ++ [ChatMessage.ai (ora st.llmCount ++ "\n")],
                    currentItem := ConversationItem.prompt p b } aborted
        rw [hadv] at hspec
        simp only [StepCont.state] at hspec
        have hchat2 : st2.chatHistory =
            st.chatHistory ++ [ChatMessage.ai (ora st.llmCount ++ "\n")] := by
          simpa using hspec.1
        have hmono : ∀ x ∈ stateItems st2, x ∈ stateItems st := by
          intro x hx
          have hx' := hspec.2 x hx
          simpa [stateItems, hcur] using hx'
        split at h
        · simp at h
        case _ rs' st'' hrec =>
          simp only [Option.some.injEq, Prod.mk.injEq] at h
          obtain ⟨hrs, hst⟩ := h
          subst hrs
          obtain ⟨⟨tail, htail⟩, hread⟩ := ih st2 input aborted rs' st'' hrec
          constructor
          · refine ⟨[ChatMessage.ai (ora st.llmCount ++ "\n")] ++ tail, ?_⟩
            rw [← hst, htail, hchat2]
            simp
          · intro m hm
            rcases List.mem_cons.mp hm with hm | hm
            · simp only [Prod.mk.injEq] at hm
              exact absurd hm.2 (by decide)
            · obtain ⟨⟨t', b', hmem, heq⟩, hhist⟩ := hread m hm
              refine ⟨⟨t', b', hmono _ hmem, heq⟩, ?_⟩
              rw [← hst]
              exact hhist
      case _ st2 hadv =>
        have hspec := advanceItem_state_spec
          { st with llmCount := st.llmCount + 1,
                    chatHistory := st.chatHistory ++ [ChatMessage.ai (ora st.llmCount ++ "\n")],
                    currentItem := ConversationItem.prompt p b } aborted
        rw [hadv] at hspec
        simp only [StepCont.state] at hspec
        simp only [Option.some.injEq, Prod.mk.injEq] at h
        obtain ⟨hrs, hst⟩ := h
        subst hrs
        constructor
        · refine ⟨[ChatMessage.ai (ora st.llmCount ++ "\n")], ?_⟩
          rw [← hst]
          simpa using hspec.1
        · intro m hm
          simp only [List.mem_singleton, Prod.mk.injEq] at hm
          exact absurd hm.2 (by decide)
      case _ st2 hadv =>
        have hspec := advanceItem_state_spec
          { st with llmCount := st.llmCount + 1,
                    chatHistory := st.chatHistory ++ [ChatMessage.ai (ora st.llmCount ++ "\n")],
                    currentItem := ConversationItem.prompt p b } aborted
        rw [hadv] at hspec
        simp only [StepCont.state] at hspec
        simp only [Option.some.injEq, Prod.mk.injEq] at h
        obtain ⟨hrs, hst⟩ := h
        subst hrs
        constructor
        · refine ⟨[ChatMessage.ai (ora st.llmCount ++ "\n")], ?_⟩
          rw [← hst]
          simpa using hspec.1
        · intro m hm
          simp only [List.mem_singleton, Prod.mk.injEq] at hm
          exact absurd hm.2 (by decide)
    | path name b =>
      simp only [runItems, hcur] at h
      split at h
      · simp at h
      case _ l halook =>
        have hmono1 : ∀ x ∈ stateItems
            { st with items := l, currentItem := ConversationItem.path name b },
            x ∈ stateItems st := by
          intro x hx
          simp only [stateItems, List.mem_append, or_assoc] at hx ⊢
          rcases hx with h1 | h2 | h3
          · left; rw [hcur]; exact h1
          · right; right; exact subItemsList_subset_subItemsOpts st.paths name l halook x h2
          · right; right; exact h3
        split at h
        case _ st2 hadv =>
          have hspec := advanceItem_state_spec
            { st with items := l, currentItem := ConversationItem.path name b } aborted
          rw [hadv] at hspec
          simp only [StepCont.state] at hspec
          have hchat2 : st2.chatHistory = st.chatHistory := by simpa using hspec.1
          obtain ⟨⟨tail, htail⟩, hread⟩ := ih st2 input aborted rs st' h
          constructor
          · exact ⟨tail, by rw [htail, hchat2]⟩
          · intro m hm
            obtain ⟨⟨t', b', hmem, heq⟩, hhist⟩ := hread m hm
            exact ⟨⟨t', b', hmono1 _ (hspec.2 _ hmem), heq⟩, hhist⟩
        case _ st2 hadv =>
          have hspec := advanceItem_state_spec
            { st with items := l, currentItem := ConversationItem.path name b } aborted
          rw [hadv] at hspec
          simp only [StepCont.state] at hspec
          simp only [Option.some.injEq, Prod.mk.injEq] at h
          obtain ⟨hrs, hst⟩ := h
          subst hrs
          constructor
          · refine ⟨[], ?_⟩
            rw [← hst]
            simpa using hspec.1
          · intro m hm
            simp at hm
        case _ st2 hadv =>
          have hspec := advanceItem_state_spec
            { st with items := l, currentItem := ConversationItem.path name b } aborted
          rw [hadv] at hspec
          simp only [StepCont.state] at hspec
          simp only [Option.some.injEq, Prod.mk.injEq] at h
          obtain ⟨hrs, hst⟩ := h
          subst hrs
          constructor
          · refine ⟨[], ?_⟩
            rw [← hst]
            simpa using hspec.1
          · intro m hm
            simp at hm
    | information ti de fo b =>
      simp only [runItems, hcur] at h
      by_cases hyes : pyStrip (ora st.llmCount) = "YES"
      · rw [if_pos hyes] at h
        split at h
        case _ hit =>
          simp only [Option.some.injEq, Prod.mk.injEq] at h
          obtain ⟨hrs, hst⟩ := h
          subst hrs
          constructor
          · refine ⟨[ChatMessage.ai ""], ?_⟩
            rw [← hst]
          · intro m hm
            simp only [List.mem_singleton, Prod.mk.injEq] at hm
            exact absurd hm.2 (by decide)
        case _ c rest hit =>
          obtain ⟨⟨tail, htail⟩, hread⟩ := ih _ input false rs st' h
          constructor
          · exact ⟨tail, htail⟩
          · intro m hm
            obtain ⟨⟨t', b', hmem, heq⟩, hhist⟩ := hread m hm
            refine ⟨⟨t', b', ?_, heq⟩, hhist⟩
            have hx := hmem
            simp only [stateItems, List.mem_append, or_assoc] at hx ⊢
            rcases hx with h1 | h2 | h3
            · right; left
              rw [hit]
              simp only [subItemsList, List.mem_append]
              left; exact h1
            · right; left
              rw [hit]
              simp only [subItemsList, List.mem_append]
              right; exact h2
            · right; right; exact h3
      · by_cases hno : pyStrip (ora st.llmCount) = "NO"
        · rw [if_neg hyes, if_pos hno] at h
          simp only [Option.some.injEq, Prod.mk.injEq] at h
          obtain ⟨hrs, hst⟩ := h
          subst hrs
          constructor
          · refine ⟨[ChatMessage.ai (ora (st.llmCount + 1))], ?_⟩
            rw [← hst]
          · intro m hm
            simp only [List.mem_singleton, Prod.mk.injEq] at hm
            exact absurd hm.2 (by decide)
        · rw [if_neg hyes, if_neg hno] at h
          simp only [extractionAborted] at h
          split at h
          · simp at h
          case _ sA stA hab =>
            simp only [Option.some.injEq, Prod.mk.injEq] at h
            obtain ⟨hrs, hst⟩ := h
            subst hrs
            split at hab
            · simp at hab
            case _ habl =>
              simp only [Option.some.injEq, Prod.mk.injEq, Sum.inl.injEq] at hab
              obtain ⟨hs, hstA⟩ := hab
              subst hs
              constructor
              · refine ⟨[ChatMessage.ai ""], ?_⟩
                rw [← hst, ← hstA]
              · intro m hm
                simp only [List.mem_singleton, Prod.mk.injEq] at hm
                exact absurd hm.2 (by decide)
            case _ c rest habl =>
              split at hab
              · simp at hab
              case _ rs3 st3 hrec =>
                simp only [Option.some.injEq, Prod.mk.injEq] at hab
                exact absurd hab.1 (by simp)
          case _ rs2 stA hab =>
            simp only [Option.some.injEq, Prod.mk.injEq] at h
            obtain ⟨hrs, hst⟩ := h
            subst hrs
            split at hab
            · simp at hab
            case _ habl =>
              simp only [Option.some.injEq, Prod.mk.injEq] at hab
              exact absurd hab.1 (by simp)
            case _ c rest habl =>
              split at hab
              · simp at hab
              case _ rs3 st3 hrec =>
                simp only [Option.some.injEq, Prod.mk.injEq, Sum.inr.injEq] at hab
                obtain ⟨hrs3, hst3⟩ := hab
                obtain ⟨⟨tail, htail⟩, hread⟩ := ih _ input true rs3 st3 hrec
                constructor
                · refine ⟨tail, ?_⟩
                  rw [← hst, ← hst3, htail]
                · intro m hm
                  rw [← hrs3] at hm
                  obtain ⟨⟨t', b', hmem, heq⟩, hhist⟩ := hread m hm
                  refine ⟨⟨t', b', ?_, heq⟩, ?_⟩
                  · have hx := hmem
                    simp only [stateItems, List.mem_append, or_assoc] at hx ⊢
                    rcases hx with h1 | h2 | h3
                    · right; right
                      refine subItemsList_subset_subItemsOpts st.paths "aborted"
                        (c :: rest) habl _ ?_
                      simp only [subItemsList, List.mem_append]
                      left; exact h1
                    · right; right
                      refine subItemsList_subset_subItemsOpts st.paths "aborted"
                        (c :: rest) habl _ ?_
                      simp only [subItemsList, List.mem_append]
                      right; exact h2
                    · right; right; exact h3
                  · rw [← hst, ← hst3]
                    exact hhist
    | choice cp opts b =>
      simp only [runItems, hcur] at h
      by_cases hnone : pyStrip (ora st.llmCount) = "##NONE##"
      · rw [if_pos hnone] at h
        simp only [Option.some.injEq, Prod.mk.injEq] at h
        obtain ⟨hrs, hst⟩ := h
        subst hrs
        constructor
        · refine ⟨[ChatMessage.ai (ora (st.llmCount + 1))], ?_⟩
          rw [← hst]
        · intro m hm
          simp only [List.mem_singleton, Prod.mk.injEq] at hm
          exact absurd hm.2 (by decide)
      · by_cases habort : pyStrip (ora st.llmCount) = "##ABORT##"
        · rw [if_neg hnone, if_pos habort] at h
          simp only [extractionAborted] at h
          split at h
          · simp at h
          case _ sA stA hab =>
            simp only [Option.some.injEq, Prod.mk.injEq] at h
            obtain ⟨hrs, hst⟩ := h
            subst hrs
            split at hab
            · simp at hab
            case _ habl =>
              simp only [Option.some.injEq, Prod.mk.injEq, Sum.inl.injEq] at hab
              obtain ⟨hs, hstA⟩ := hab
              subst hs
              constructor
              · refine ⟨[ChatMessage.ai ""], ?_⟩
                rw [← hst, ← hstA]
              · intro m hm
                simp only [List.mem_singleton, Prod.mk.injEq] at hm
                exact absurd hm.2 (by decide)
            case _ c rest habl =>
              split at hab
              · simp at hab
              case _ rs3 st3 hrec =>
                simp only [Option.some.injEq, Prod.mk.injEq] at hab
                exact absurd hab.1 (by simp)
          case _ rs2 stA hab =>
            simp only [Option.some.injEq, Prod.mk.injEq] at h
            obtain ⟨hrs, hst⟩ := h
            subst hrs
            split at hab
            · simp at hab
            case _ habl =>
              simp only [Option.some.injEq, Prod.mk.injEq] at hab
              exact absurd hab.1 (by simp)
            case _ c rest habl =>
              split at hab
              · simp at hab
              case _ rs3 st3 hrec =>
                simp only [Option.some.injEq, Prod.mk.injEq, Sum.inr.injEq] at hab
                obtain ⟨hrs3, hst3⟩ := hab
                obtain ⟨⟨tail, htail⟩, hread⟩ := ih _ input true rs3 st3 hrec
                constructor
                · refine ⟨tail, ?_⟩
                  rw [← hst, ← hst3, htail]
                · intro m hm
                  rw [← hrs3] at hm
                  obtain ⟨⟨t', b', hmem, heq⟩, hhist⟩ := hread m hm
                  refine ⟨⟨t', b', ?_, heq⟩, ?_⟩
                  · have hx := hmem
                    simp only [stateItems, List.mem_append, or_assoc] at hx ⊢
                    rcases hx with h1 | h2 | h3
                    · right; right
                      refine subItemsList_subset_subItemsOpts st.paths "aborted"
                        (c :: rest) habl _ ?_
                      simp only [subItemsList, List.mem_append]
                      left; exact h1
                    · right; right
                      refine subItemsList_subset_subItemsOpts st.paths "aborted"
                        (c :: rest) habl _ ?_
                      simp only [subItemsList, List.mem_append]
                      right; exact h2
                    · right; right; exact h3
                  · rw [← hst, ← hst3]
                    exact hhist
        · rw [if_neg hnone, if_neg habort] at h
          split at h
          · simp at h
          · simp at h
          case _ c rest halook =>
            obtain ⟨⟨tail, htail⟩, hread⟩ := ih _ input false rs st' h
            constructor
            · exact ⟨tail, htail⟩
            · intro m hm
              obtain ⟨⟨t', b', hmem, heq⟩, hhist⟩ := hread m hm
              refine ⟨⟨t', b', ?_, heq⟩, hhist⟩
              have hx := hmem
              simp only [stateItems, List.mem_append, or_assoc] at hx ⊢
              rcases hx with h1 | h2 | h3
              · left
                rw [hcur]
                have : ConversationItem.read t' b' ∈ subItemsOpts opts := by
                  refine subItemsList_subset_subItemsOpts opts
                    (pyStrip (ora st.llmCount)) (c :: rest) halook _ ?_
                  simp only [subItemsList, List.mem_append]
                  left; exact h1
                simp [subItems, this]
              · left
                rw [hcur]
                have : ConversationItem.read t' b' ∈ subItemsOpts opts := by
                  refine subItemsList_subset_subItemsOpts opts
                    (pyStrip (ora st.llmCount)) (c :: rest) halook _ ?_
                  simp only [subItemsList, List.mem_append]
                  right; exact h2
                simp [subItems, this]
              · right; right; exact h3
    | function mo fn b =>
      simp only [runItems, hcur] at h
      split at h
      case _ st2 hadv =>
        have hspec := advanceItem_state_spec
          { st with pluginCount := st.pluginCount + 1,
                    currentItem := ConversationItem.function mo fn b } aborted
        rw [hadv] at hspec
        simp only [StepCont.state] at hspec
        have hchat2 : st2.chatHistory = st.chatHistory := by simpa using hspec.1
        have hmono : ∀ x ∈ stateItems st2, x ∈ stateItems st := by
          intro x hx
          have hx' := hspec.2 x hx
          simpa [stateItems, hcur] using hx'
        split at h
        · simp at h
        case _ rs' st'' hrec =>
          simp only [Option.some.injEq, Prod.mk.injEq] at h
          obtain ⟨hrs, hst⟩ := h
          subst hrs
          obtain ⟨⟨tail, htail⟩, hread⟩ := ih st2 input aborted rs' st'' hrec
          constructor
          · refine ⟨tail, ?_⟩
            rw [← hst, htail, hchat2]
          · intro m hm
            rcases List.mem_cons.mp hm with hm | hm
            · simp only [Prod.mk.injEq] at hm
              exact absurd hm.2 (by decide)
            · obtain ⟨⟨t', b', hmem, heq⟩, hhist⟩ := hread m hm
              refine ⟨⟨t', b', hmono _ hmem, heq⟩, ?_⟩
              rw [← hst]
              exact hhist
      case _ st2 hadv =>
        have hspec := advanceItem_state_spec
          { st with pluginCount := st.pluginCount + 1,
                    currentItem := ConversationItem.function mo fn b } aborted
        rw [hadv] at hspec
        simp only [StepCont.state] at hspec
        simp only [Option.some.injEq, Prod.mk.injEq] at h
        obtain ⟨hrs, hst⟩ := h
        subst hrs
        constructor
        · refine ⟨[], ?_⟩
          rw [← hst]
          simpa using hspec.1
        · intro m hm
          simp only [List.mem_singleton, Prod.mk.injEq] at hm
          exact absurd hm.2 (by decide)
      case _ st2 hadv =>
        have hspec := advanceItem_state_spec
          { st with pluginCount := st.pluginCount + 1,
                    currentItem := ConversationItem.function mo fn b } aborted
        rw [hadv] at hspec
        simp only [StepCont.state] at hspec
        simp only [Option.some.injEq, Prod.mk.injEq] at h
        obtain ⟨hrs, hst⟩ := h
        subst hrs
        constructor
        · refine ⟨[], ?_⟩
          rw [← hst]
          simpa using hspec.1
        · intro m hm
          simp only [List.mem_singleton, Prod.mk.injEq] at hm
          exact absurd hm.2 (by decide)
    | functionChoice mo fn opts b =>
      simp only [runItems, hcur] at h
      split at h
      · simp at h
      case _ l halook =>
        have hmono1 : ∀ x ∈ stateItems
            { st with pluginCount := st.pluginCount + 1, items := l,
                      currentItem := ConversationItem.functionChoice mo fn opts b },
            x ∈ stateItems st := by
          intro x hx
          simp only [stateItems, List.mem_append, or_assoc] at hx ⊢
          rcases hx with h1 | h2 | h3
          · left; rw [hcur]; exact h1
          · left
            rw [hcur]
            have := subItemsList_subset_subItemsOpts opts (plug st.pluginCount) l halook x h2
            simp [subItems, this]
          · right; right; exact h3
        split at h
        case _ st2 hadv =>
          have hspec := advanceItem_state_spec
            { st with pluginCount := st.pluginCount + 1, items := l,
                      currentItem := ConversationItem.functionChoice mo fn opts b } aborted
          rw [hadv] at hspec
          simp only [StepCont.state] at hspec
          have hchat2 : st2.chatHistory = st.chatHistory := by simpa using hspec.1
          obtain ⟨⟨tail, htail⟩, hread⟩ := ih st2 input aborted rs st' h
          constructor
          · exact ⟨tail, by rw [htail, hchat2]⟩
          · intro m hm
            obtain ⟨⟨t', b', hmem, heq⟩, hhist⟩ := hread m hm
            exact ⟨⟨t', b', hmono1 _ (hspec.2 _ hmem), heq⟩, hhist⟩
        case _ st2 hadv =>
          have hspec := advanceItem_state_spec
            { st with pluginCount := st.pluginCount + 1, items := l,
                      currentItem := ConversationItem.functionChoice mo fn opts b } aborted
          rw [hadv] at hspec
          simp only [StepCont.state] at hspec
          simp only [Option.some.injEq, Prod.mk.injEq] at h
          obtain ⟨hrs, hst⟩ := h
          subst hrs
          constructor
          · refine ⟨[], ?_⟩
            rw [← hst]
            simpa using hspec.1
          · intro m hm
            simp at hm
        case _ st2 hadv =>
          have hspec := advanceItem_state_spec
            { st with pluginCount := st.pluginCount + 1, items := l,
                      currentItem := ConversationItem.functionChoice mo fn opts b } aborted
          rw [hadv] at hspec
          simp only [StepCont.state] at hspec
          simp only [Option.some.injEq, Prod.mk.injEq] at h
          obtain ⟨hrs, hst⟩ := h
          subst hrs
          constructor
          · refine ⟨[], ?_⟩
            rw [← hst]
            simpa using hspec.1
          · intro m hm
            simp at hm

/-- C9, witness: the single-read conversation emits `("Hi\n", "read")`,
whose text is the item text plus newline and which lands in the history. -/
theorem c9_witness :
    (∃ tail, ([ChatMessage.ai "Hi\n"] : List ChatMessage) = [] ++ tail) ∧
    (∀ m, (m, "read") ∈ [("Hi\n", "read")] →
      (∃ t b, ConversationItem.read t b ∈ stateItems c1St0 ∧ m = t ++ "\n") ∧
      ChatMessage.ai m ∈ [ChatMessage.ai "Hi\n"]) :=
  c9_read_fragment_exact oraNone oraNone 10 c1St0 "" false [("Hi\n", "read")]
    { c1St0 with status := .completed, chatHistory := [ChatMessage.ai "Hi\n"] } rfl
